import Mathlib

/-!
# Networked wall-run movement: a shallow embedding

Embedding of `Source/CharacterNetworking/MyCharacterMovementComponent.{h,cpp}`.

Conventions.
* `float` values are idealised as elements of a linearly ordered field `α`
  (every definition is computable and can be evaluated at `α = ℚ`); float
  literals such as `-0.05f` stand for the decimal they spell.
* `uint8` values are natural numbers; the only byte arithmetic in the source
  is a bitwise OR with a single flag bit, which cannot leave the byte range.
* Stateful member functions become functions from a component value to a
  component value (paired with the returned value when there is one).
* Engine code that the repository calls but does not contain (`Super::` calls,
  world queries, maths helpers) is taken as a parameter, collected in `Engine`.
-/

namespace WallRun

/-! ## Vectors -/

/-- The engine's three-component vector `FVector`. -/
structure FVector (α : Type) where
  X : α
  Y : α
  Z : α
deriving DecidableEq, Repr

namespace FVector

variable {α : Type} [LinearOrderedField α]

/-- The zero vector, `FVector::ZeroVector`. -/
def ZeroVector : FVector α := ⟨0, 0, 0⟩

/-- Componentwise sum, `operator+`. -/
def add (a b : FVector α) : FVector α := ⟨a.X + b.X, a.Y + b.Y, a.Z + b.Z⟩

/-- Scaling by a scalar, `operator*(float)`. -/
def scale (a : FVector α) (k : α) : FVector α := ⟨a.X * k, a.Y * k, a.Z * k⟩

/-- Cross product, `FVector::CrossProduct`. -/
def CrossProduct (a b : FVector α) : FVector α :=
  ⟨a.Y * b.Z - a.Z * b.Y, a.Z * b.X - a.X * b.Z, a.X * b.Y - a.Y * b.X⟩

/-- Dot product, `FVector::DotProduct`. -/
def DotProduct (a b : FVector α) : α := a.X * b.X + a.Y * b.Y + a.Z * b.Z

/-- Dot product of the horizontal parts: `FVector2D::DotProduct(FVector2D(a), FVector2D(b))`;
the conversion `FVector2D(FVector)` keeps `X` and `Y`. -/
def DotProduct2D (a b : FVector α) : α := a.X * b.X + a.Y * b.Y

/-- The engine constant `SMALL_NUMBER` (1e-8), the default tolerance of `Normalize`. -/
def SMALL_NUMBER : α := 1 / 100000000

/-- In-place `FVector::Normalize` with the engine's inverse square root as a
parameter: a vector whose squared length does not exceed `SMALL_NUMBER` is left alone. -/
def Normalize (InvSqrt : α → α) (a : FVector α) : FVector α :=
  let SquareSum := a.X * a.X + a.Y * a.Y + a.Z * a.Z
  if SquareSum > SMALL_NUMBER then a.scale (InvSqrt SquareSum) else a

/-- The engine's `FVector::GetSafeNormal`: a copy of unit length, the vector itself
when its squared length is exactly one, the zero vector when it is below `SMALL_NUMBER`. -/
def GetSafeNormal (InvSqrt : α → α) (a : FVector α) : FVector α :=
  let SquareSum := a.X * a.X + a.Y * a.Y + a.Z * a.Z
  if SquareSum = 1 then a
  else if SquareSum < SMALL_NUMBER then ZeroVector
  else a.scale (InvSqrt SquareSum)

end FVector

/-! ## Enumerations -/

/-- The engine's `EMovementMode`. -/
inductive EMovementMode where
  | MOVE_None
  | MOVE_Walking
  | MOVE_NavWalking
  | MOVE_Falling
  | MOVE_Swimming
  | MOVE_Flying
  | MOVE_Custom
  | MOVE_MAX
deriving DecidableEq, Repr

/-- Custom movement modes, `ECustomMovementMode.h`. -/
inductive ECustomMovementMode where
  | CMOVE_WallRunning
  | CMOVE_MAX
deriving DecidableEq, Repr

/-- The byte value of a custom movement mode (plain C enum, numbered from 0). -/
def ECustomMovementMode.toUInt8 : ECustomMovementMode → Nat
  | .CMOVE_WallRunning => 0
  | .CMOVE_MAX => 1

/-- Side of the wall the character runs along, `EWallRunSide.h`. -/
inductive EWallRunSide where
  | kLeft
  | kRight
deriving DecidableEq, Repr

/-- The constant of `<cfloat>` named `FLT_EPSILON`, 2^-23. -/
def FLT_EPSILON {α : Type} [LinearOrderedField α] : α := 1 / 8388608

/-- The engine constant `FSavedMove_Character::FLAG_Custom_0`, the first custom bit of the flag byte. -/
def FLAG_Custom_0 : Nat := 0x10
/-- The engine constant `FSavedMove_Character::FLAG_Custom_1`. -/
def FLAG_Custom_1 : Nat := 0x20
/-- The engine constant `FSavedMove_Character::FLAG_Custom_2` (unused by this component). -/
def FLAG_Custom_2 : Nat := 0x40
/-- The engine constant `FSavedMove_Character::FLAG_Custom_3` (unused by this component). -/
def FLAG_Custom_3 : Nat := 0x80

/-! ## State -/

/-- What the component reads from, and writes to, its owning pawn. -/
structure APawn (α : Type) where
  ActorLocation : FVector α
  ActorRightVector : FVector α
  ActorForwardVector : FVector α
  bLocallyControlled : Bool
  bIsCrouched : Bool
deriving DecidableEq, Repr

/-- The fields of the engine base class `UCharacterMovementComponent` that the
repository code reads or writes. -/
structure UCharacterMovementComponent (α : Type) where
  MovementMode : EMovementMode
  CustomMovementMode : Nat
  Velocity : FVector α
  bConstrainToPlane : Bool
  PlaneConstraintNormal : FVector α
  WalkableFloorAngle : α
  MaxWalkSpeedCrouched : α
  MaxSwimSpeed : α
  MaxFlySpeed : α
  MaxCustomMovementSpeed : α
  MaxAcceleration : α
  PawnOwner : APawn α
deriving DecidableEq, Repr

/-- A call the component issues to an engine collaborator: a line probe of the
world or a move request. Recorded so that "no probe was issued" and "no move was
requested" can be stated. -/
inductive EngineCall (α : Type) where
  | LineTrace (start finish : FVector α)
  | SafeMove (delta : FVector α)
deriving DecidableEq, Repr

/-- The movement component `UMyCharacterMovementComponent`: the base-class fields,
the fields declared in `MyCharacterMovementComponent.h`, and the record `Calls`
of collaborator calls issued so far (most recent last). -/
structure UMyCharacterMovementComponent (α : Type) extends UCharacterMovementComponent α where
  RunSpeed : α
  SprintSpeed : α
  RunAcceleration : α
  SprintAcceleration : α
  LineTraceVerticalTolerance : α
  WallRunSpeed : α
  WantsToSprint : Bool
  WallRunKeysDown : Bool
  SprintKeyDown : Bool
  WallRunDirection : FVector α
  WallRunSide : EWallRunSide
  Calls : List (EngineCall α)
deriving DecidableEq, Repr

/-- The saved move `FSavedMove_My`: the engine's `FSavedMove_Character` part, kept
abstract as `Super : σ`, and the two one-bit fields of the derived class. -/
structure FSavedMove_My (σ : Type) where
  Super : σ
  SavedWantsToSprint : Bool
  SavedWallRunKeysDown : Bool
deriving DecidableEq, Repr

/-- The engine collaborators of the movement component. -/
structure Engine (α : Type) where
  /-- The engine function `FMath::Acos`. -/
  Acos : α → α
  /-- The engine function `FMath::InvSqrt`. -/
  InvSqrt : α → α
  /-- The world query `UWorld::LineTraceSingleByChannel` on the visibility channel: the impact
  normal of the first blocking hit between the two points, `none` on a miss. -/
  LineTraceSingleByChannel : FVector α → FVector α → Option (FVector α)
  /-- The engine primitive `SafeMoveUpdatedComponent`: the pawn after the requested displacement has
  been resolved against the world. -/
  SafeMoveUpdatedComponent : FVector α → APawn α → APawn α
  /-- The base-class handler `UCharacterMovementComponent::OnMovementModeChanged`. -/
  Super_OnMovementModeChanged :
    EMovementMode → Nat → UCharacterMovementComponent α → UCharacterMovementComponent α
  /-- The base-class decoder `UCharacterMovementComponent::UpdateFromCompressedFlags`. -/
  Super_UpdateFromCompressedFlags :
    Nat → UCharacterMovementComponent α → UCharacterMovementComponent α
  /-- The base-class handler `UCharacterMovementComponent::ProcessLanded`; it runs
  further physics, so it may touch any part of the component. -/
  Super_ProcessLanded : UMyCharacterMovementComponent α → UMyCharacterMovementComponent α

/-! ## The movement component -/

namespace UMyCharacterMovementComponent

variable {α : Type} [LinearOrderedField α]

/-- Source: `SetSprinting`. -/
def SetSprinting (c : UMyCharacterMovementComponent α) (sprinting : Bool) :
    UMyCharacterMovementComponent α :=
  { c with SprintKeyDown := sprinting }

/-- Source: `IsCustomMovementMode`. -/
def IsCustomMovementMode (c : UMyCharacterMovementComponent α) (custom_movement_mode : Nat) :
    Bool :=
  c.MovementMode == EMovementMode.MOVE_Custom && c.CustomMovementMode == custom_movement_mode

/-- Engine helper `IsFalling` (the updated component is taken to exist). -/
def IsFalling (c : UMyCharacterMovementComponent α) : Bool :=
  c.MovementMode == EMovementMode.MOVE_Falling

/-- Engine helper `IsMovingOnGround` (the updated component is taken to exist). -/
def IsMovingOnGround (c : UMyCharacterMovementComponent α) : Bool :=
  c.MovementMode == EMovementMode.MOVE_Walking || c.MovementMode == EMovementMode.MOVE_NavWalking

/-- Engine helper `IsCrouching`: the owner's crouch bit. -/
def IsCrouching (c : UMyCharacterMovementComponent α) : Bool :=
  c.PawnOwner.bIsCrouched

/-- Engine getter `GetWalkableFloorAngle`. -/
def GetWalkableFloorAngle (c : UMyCharacterMovementComponent α) : α :=
  c.WalkableFloorAngle

/-- Engine helper `StopMovementImmediately`: the velocity becomes the zero vector. -/
def StopMovementImmediately (c : UMyCharacterMovementComponent α) :
    UMyCharacterMovementComponent α :=
  { c with Velocity := FVector.ZeroVector }

/-- Engine setter `SetPlaneConstraintNormal`: stores the safe normal of its argument. -/
def SetPlaneConstraintNormal (E : Engine α) (c : UMyCharacterMovementComponent α)
    (PlaneNormal : FVector α) : UMyCharacterMovementComponent α :=
  { c with PlaneConstraintNormal := PlaneNormal.GetSafeNormal E.InvSqrt }

/-- Source: `OnMovementModeChanged`. The component already holds the new mode; the
arguments are the previous mode pair. -/
def OnMovementModeChanged (E : Engine α) (c : UMyCharacterMovementComponent α)
    (PreviousMovementMode : EMovementMode) (PreviousCustomMode : Nat) :
    UMyCharacterMovementComponent α :=
  let c1 :=
    if c.MovementMode = EMovementMode.MOVE_Custom then
      if c.CustomMovementMode = ECustomMovementMode.CMOVE_WallRunning.toUInt8 then
        SetPlaneConstraintNormal E
          { StopMovementImmediately c with bConstrainToPlane := true } ⟨0, 0, 1⟩
      else c
    else c
  let c2 :=
    if PreviousMovementMode = EMovementMode.MOVE_Custom then
      if PreviousCustomMode = ECustomMovementMode.CMOVE_WallRunning.toUInt8 then
        { c1 with bConstrainToPlane := false }
      else c1
    else c1
  { c2 with
    toUCharacterMovementComponent :=
      E.Super_OnMovementModeChanged PreviousMovementMode PreviousCustomMode
        c2.toUCharacterMovementComponent }

/-- Modelled from the spec: the engine's `SetMovementMode` is not among the repository
sources. A request for a non-custom mode carries custom id 0; a request for the mode
pair that is already current delivers nothing; otherwise the pair is replaced and
`OnMovementModeChanged` is delivered with the previous pair. -/
def SetMovementMode (E : Engine α) (c : UMyCharacterMovementComponent α)
    (NewMovementMode : EMovementMode) (NewCustomMode : Nat) :
    UMyCharacterMovementComponent α :=
  let NewCustomMode := if NewMovementMode = EMovementMode.MOVE_Custom then NewCustomMode else 0
  if c.MovementMode = NewMovementMode ∧
      (NewMovementMode ≠ EMovementMode.MOVE_Custom ∨ NewCustomMode = c.CustomMovementMode) then
    c
  else
    OnMovementModeChanged E
      { c with MovementMode := NewMovementMode, CustomMovementMode := NewCustomMode }
      c.MovementMode c.CustomMovementMode

/-- Source: `BeginWallRun`; the returned flag is paired with the resulting component. -/
def BeginWallRun (E : Engine α) (c : UMyCharacterMovementComponent α) :
    Bool × UMyCharacterMovementComponent α :=
  if c.WallRunKeysDown == true then
    (true, SetMovementMode E c EMovementMode.MOVE_Custom
      ECustomMovementMode.CMOVE_WallRunning.toUInt8)
  else
    (false, c)

/-- Source: `EndWallRun`. -/
def EndWallRun (E : Engine α) (c : UMyCharacterMovementComponent α) :
    UMyCharacterMovementComponent α :=
  SetMovementMode E c EMovementMode.MOVE_Falling 0

/-- Source: `FindWallRunDirectionAndSide`; the two out-parameters are returned. -/
def FindWallRunDirectionAndSide (c : UMyCharacterMovementComponent α)
    (surface_normal : FVector α) : FVector α × EWallRunSide :=
  if FVector.DotProduct2D surface_normal c.PawnOwner.ActorRightVector > 0 then
    (FVector.CrossProduct surface_normal ⟨0, 0, 1⟩, EWallRunSide.kRight)
  else
    (FVector.CrossProduct surface_normal ⟨0, 0, -1⟩, EWallRunSide.kLeft)

/-- Source: `CanSurfaceBeWallRan`. -/
def CanSurfaceBeWallRan (E : Engine α) (c : UMyCharacterMovementComponent α)
    (surface_normal : FVector α) : Bool :=
  if surface_normal.Z < -(5 / 100) then false
  else
    let normalNoZ := FVector.Normalize E.InvSqrt ⟨surface_normal.X, surface_normal.Y, 0⟩
    let wallAngle := E.Acos (FVector.DotProduct normalNoZ surface_normal)
    decide (wallAngle < GetWalkableFloorAngle c)

/-- The helper lambda `lineTrace` of `IsNextToWall`: one world probe, recorded in
`Calls`; the result is the impact normal of the hit, if any. -/
def lineTrace (E : Engine α) (c : UMyCharacterMovementComponent α) (start finish : FVector α) :
    Option (FVector α) × UMyCharacterMovementComponent α :=
  (E.LineTraceSingleByChannel start finish,
    { c with Calls := c.Calls ++ [EngineCall.LineTrace start finish] })

/-- The tail of `IsNextToWall` after a probe has hit: the hit normal is reclassified,
the direction is written to `WallRunDirection`, the side is compared with `WallRunSide`. -/
def sideCheck (c : UMyCharacterMovementComponent α) (ImpactNormal : FVector α) :
    Bool × UMyCharacterMovementComponent α :=
  let r := FindWallRunDirectionAndSide c ImpactNormal
  let c1 := { c with WallRunDirection := r.1 }
  if r.2 ≠ c1.WallRunSide then (false, c1) else (true, c1)

/-- The local `crossVector` of `IsNextToWall`: down for a left-side run, up otherwise. -/
def crossVector (c : UMyCharacterMovementComponent α) : FVector α :=
  if c.WallRunSide = EWallRunSide.kLeft then ⟨0, 0, -1⟩ else ⟨0, 0, 1⟩

/-- The local `traceStart` of `IsNextToWall`. -/
def traceStart (c : UMyCharacterMovementComponent α) : FVector α :=
  c.PawnOwner.ActorLocation.add (c.WallRunDirection.scale 20)

/-- The local `traceEnd` of `IsNextToWall`. -/
def traceEnd (c : UMyCharacterMovementComponent α) : FVector α :=
  (traceStart c).add ((FVector.CrossProduct c.WallRunDirection (crossVector c)).scale 100)

/-- Source: `IsNextToWall`; the returned flag is paired with the resulting component.
The second probe of the `&&` is issued only when the first one missed. -/
def IsNextToWall (E : Engine α) (c : UMyCharacterMovementComponent α) (vertical_tolerance : α) :
    Bool × UMyCharacterMovementComponent α :=
  if vertical_tolerance > FLT_EPSILON then
    let up := lineTrace E c
      ⟨(traceStart c).X, (traceStart c).Y, (traceStart c).Z + vertical_tolerance / 2⟩
      ⟨(traceEnd c).X, (traceEnd c).Y, (traceEnd c).Z + vertical_tolerance / 2⟩
    match up.1 with
    | some n => sideCheck up.2 n
    | none =>
      let down := lineTrace E up.2
        ⟨(traceStart c).X, (traceStart c).Y, (traceStart c).Z - vertical_tolerance / 2⟩
        ⟨(traceEnd c).X, (traceEnd c).Y, (traceEnd c).Z - vertical_tolerance / 2⟩
      match down.1 with
      | some n => sideCheck down.2 n
      | none => (false, down.2)
  else
    let one := lineTrace E c (traceStart c) (traceEnd c)
    match one.1 with
    | some n => sideCheck one.2 n
    | none => (false, one.2)

/-- Source: `OnActorHit`; `ImpactNormal` is `Hit.ImpactNormal`, the only part of the
arguments the handler reads. -/
def OnActorHit (E : Engine α) (c : UMyCharacterMovementComponent α) (ImpactNormal : FVector α) :
    UMyCharacterMovementComponent α :=
  if IsCustomMovementMode c ECustomMovementMode.CMOVE_WallRunning.toUInt8 then c
  else if IsFalling c == false then c
  else if CanSurfaceBeWallRan E c ImpactNormal == false then c
  else
    let r := FindWallRunDirectionAndSide c ImpactNormal
    let c1 := { c with WallRunDirection := r.1, WallRunSide := r.2 }
    let p := IsNextToWall E c1 0
    if p.1 == false then p.2
    else (BeginWallRun E p.2).2

/-- Source: `UpdateFromCompressedFlags`. -/
def UpdateFromCompressedFlags (E : Engine α) (c : UMyCharacterMovementComponent α) (Flags : Nat) :
    UMyCharacterMovementComponent α :=
  let c1 := { c with
    toUCharacterMovementComponent :=
      E.Super_UpdateFromCompressedFlags Flags c.toUCharacterMovementComponent }
  { c1 with
    WantsToSprint := (Flags &&& FLAG_Custom_0) != 0
    WallRunKeysDown := (Flags &&& FLAG_Custom_1) != 0 }

/-- Source: `PhysWallRunning`. -/
def PhysWallRunning (E : Engine α) (c : UMyCharacterMovementComponent α) (deltaTime : α) :
    UMyCharacterMovementComponent α :=
  if c.WallRunKeysDown == false then EndWallRun E c
  else
    let p := IsNextToWall E c c.LineTraceVerticalTolerance
    if p.1 == false then EndWallRun E p.2
    else
      let c1 := p.2
      let newVelocity : FVector α :=
        ⟨c1.WallRunDirection.X * c1.WallRunSpeed, c1.WallRunDirection.Y * c1.WallRunSpeed,
          c1.WallRunDirection.Z * 0⟩
      let c2 := { c1 with Velocity := newVelocity }
      let Adjusted := c2.Velocity.scale deltaTime
      { c2 with
        PawnOwner := E.SafeMoveUpdatedComponent Adjusted c2.PawnOwner
        Calls := c2.Calls ++ [EngineCall.SafeMove Adjusted] }

/-- Source: `ProcessLanded`. -/
def ProcessLanded (E : Engine α) (c : UMyCharacterMovementComponent α) :
    UMyCharacterMovementComponent α :=
  let c1 := E.Super_ProcessLanded c
  if IsCustomMovementMode c1 ECustomMovementMode.CMOVE_WallRunning.toUInt8 then EndWallRun E c1
  else c1

end UMyCharacterMovementComponent

/-! ## The saved move -/

namespace FSavedMove_My

variable {σ α : Type} [LinearOrderedField α]

/-- Source: `FSavedMove_My::Clear`; `Super_Clear` is the base-class reset. -/
def Clear (Super_Clear : σ → σ) (m : FSavedMove_My σ) : FSavedMove_My σ :=
  { Super := Super_Clear m.Super, SavedWantsToSprint := false, SavedWallRunKeysDown := false }

/-- Source: `FSavedMove_My::GetCompressedFlags`; `Super_GetCompressedFlags` is the
flag byte the base class computes from its part of the move. -/
def GetCompressedFlags (Super_GetCompressedFlags : σ → Nat) (m : FSavedMove_My σ) : Nat :=
  let Result := Super_GetCompressedFlags m.Super
  let Result := if m.SavedWantsToSprint then Result ||| FLAG_Custom_0 else Result
  let Result := if m.SavedWallRunKeysDown then Result ||| FLAG_Custom_1 else Result
  Result

/-- Source: `FSavedMove_My::CanCombineWith`; `Super_CanCombineWith` is the base
combine rule for the same two moves (character and time bound fixed). -/
def CanCombineWith (Super_CanCombineWith : FSavedMove_My σ → FSavedMove_My σ → Bool)
    (self NewMove : FSavedMove_My σ) : Bool :=
  if self.SavedWantsToSprint != NewMove.SavedWantsToSprint ||
      self.SavedWallRunKeysDown != NewMove.SavedWallRunKeysDown then
    false
  else
    Super_CanCombineWith self NewMove

/-- Source: `FSavedMove_My::SetMoveFor`, for a character whose movement component is
`charMov`; `Super_SetMoveFor` is the base-class capture into the base part. -/
def SetMoveFor (Super_SetMoveFor : UCharacterMovementComponent α → σ → σ)
    (m : FSavedMove_My σ) (charMov : UMyCharacterMovementComponent α) : FSavedMove_My σ :=
  let m1 := { m with Super := Super_SetMoveFor charMov.toUCharacterMovementComponent m.Super }
  { m1 with
    SavedWantsToSprint := charMov.WantsToSprint
    SavedWallRunKeysDown := charMov.WallRunKeysDown }

/-- Source: `FSavedMove_My::PrepMoveFor`, for a character whose movement component is
`charMov`; `Super_PrepMoveFor` is the base-class replay preparation. -/
def PrepMoveFor (Super_PrepMoveFor : σ → UCharacterMovementComponent α → UCharacterMovementComponent α)
    (m : FSavedMove_My σ) (charMov : UMyCharacterMovementComponent α) :
    UMyCharacterMovementComponent α :=
  let c1 := { charMov with
    toUCharacterMovementComponent := Super_PrepMoveFor m.Super charMov.toUCharacterMovementComponent }
  { c1 with
    WantsToSprint := m.SavedWantsToSprint
    WallRunKeysDown := m.SavedWallRunKeysDown }

end FSavedMove_My

/-! ## Speed, acceleration and input sampling -/

namespace UMyCharacterMovementComponent

variable {α κ : Type} [LinearOrderedField α]

/-- Source: `GetMaxSpeed`. The `default:` label shares the `MOVE_None` arm. -/
def GetMaxSpeed (c : UMyCharacterMovementComponent α) : α :=
  match c.MovementMode with
  | EMovementMode.MOVE_Walking | EMovementMode.MOVE_NavWalking =>
    if IsCrouching c then c.MaxWalkSpeedCrouched
    else if c.WantsToSprint then c.SprintSpeed
    else c.RunSpeed
  | EMovementMode.MOVE_Falling => c.RunSpeed
  | EMovementMode.MOVE_Swimming => c.MaxSwimSpeed
  | EMovementMode.MOVE_Flying => c.MaxFlySpeed
  | EMovementMode.MOVE_Custom => c.MaxCustomMovementSpeed
  | _ => 0

/-- Source: `GetMaxAcceleration`; `Super_GetMaxAcceleration` is the base-class getter. -/
def GetMaxAcceleration (Super_GetMaxAcceleration : UCharacterMovementComponent α → α)
    (c : UMyCharacterMovementComponent α) : α :=
  if IsMovingOnGround c then
    if c.WantsToSprint then c.SprintAcceleration
    else c.RunAcceleration
  else Super_GetMaxAcceleration c.toUCharacterMovementComponent

/-- The `for` loop of `AreRequiredWallRunKeysDown` over the key mappings. The player
controller is `GetController<APlayerController>()`: `none` is the null pointer, which the
loop body dereferences without a check, so a null controller with a mapping left to test
is a fault, the result `none`. A present controller is its `IsInputKeyDown`. -/
def sprintKeyLoop (PlayerController : Option (κ → Bool)) : List κ → Option Bool
  | [] => some false
  | key :: rest =>
    match PlayerController with
    | none => none
    | some IsInputKeyDown =>
      if IsInputKeyDown key then some true else sprintKeyLoop PlayerController rest

/-- Source: `AreRequiredWallRunKeysDown`. `GetActionMappingByName` is the input settings'
lookup of the keys bound to a named action; the result is `none` when the call faults. -/
def AreRequiredWallRunKeysDown (GetActionMappingByName : String → List κ)
    (PlayerController : Option (κ → Bool)) (c : UMyCharacterMovementComponent α) : Option Bool :=
  if c.PawnOwner.bLocallyControlled == false then some false
  else sprintKeyLoop PlayerController (GetActionMappingByName "Sprint")

/-- Engine getter `APawn::GetVelocity` on the owner: for a pawn that does not simulate
physics it is the velocity of its movement component. -/
def GetPawnOwnerVelocity (c : UMyCharacterMovementComponent α) : FVector α :=
  c.Velocity

/-- The value `TickComponent` assigns to `WantsToSprint` for a locally controlled
character. -/
def sampledWantsToSprint (E : Engine α) (c : UMyCharacterMovementComponent α) : Bool :=
  if c.SprintKeyDown == true then
    let velocity2D : FVector α := ⟨(GetPawnOwnerVelocity c).X, (GetPawnOwnerVelocity c).Y, 0⟩
    let forward2D : FVector α :=
      ⟨c.PawnOwner.ActorForwardVector.X, c.PawnOwner.ActorForwardVector.Y, 0⟩
    decide (FVector.DotProduct (velocity2D.Normalize E.InvSqrt) (forward2D.Normalize E.InvSqrt)
      > 5 / 10)
  else false

/-- The part of `TickComponent` before the base-class call: the local-only checks. The
result is `none` when the key query faults. -/
def localOnlyChecks (E : Engine α) (GetActionMappingByName : String → List κ)
    (PlayerController : Option (κ → Bool)) (c : UMyCharacterMovementComponent α) :
    Option (UMyCharacterMovementComponent α) :=
  if c.PawnOwner.bLocallyControlled then
    let c1 := { c with WantsToSprint := sampledWantsToSprint E c }
    match AreRequiredWallRunKeysDown GetActionMappingByName PlayerController c1 with
    | none => none
    | some keys => some { c1 with WallRunKeysDown := keys }
  else some c

/-- Source: `TickComponent`; `Super_TickComponent` is the base-class tick, which runs the
whole movement update and so may touch any part of the component. -/
def TickComponent (E : Engine α) (GetActionMappingByName : String → List κ)
    (PlayerController : Option (κ → Bool))
    (Super_TickComponent : UMyCharacterMovementComponent α → UMyCharacterMovementComponent α)
    (c : UMyCharacterMovementComponent α) : Option (UMyCharacterMovementComponent α) :=
  match localOnlyChecks E GetActionMappingByName PlayerController c with
  | none => none
  | some c1 => some (Super_TickComponent c1)

/-- The local `wallAngle` of `CanSurfaceBeWallRan`. -/
def wallAngle (E : Engine α) (surface_normal : FVector α) : α :=
  E.Acos (FVector.DotProduct
    (FVector.Normalize E.InvSqrt ⟨surface_normal.X, surface_normal.Y, 0⟩) surface_normal)

end UMyCharacterMovementComponent

/-! ## Sequences of wall-run steps -/

/-- One step of the wall-run state machine, with the arguments the step takes. -/
inductive WallRunStep (α : Type) where
  | BeginWallRun
  | EndWallRun
  | OnActorHit (ImpactNormal : FVector α)
  | PhysWallRunning (deltaTime : α)
  | ProcessLanded
deriving DecidableEq, Repr

/-- The component after one step, in the engine (world included) current at that step. -/
def WallRunStep.apply {α : Type} [LinearOrderedField α] (E : Engine α)
    (c : UMyCharacterMovementComponent α) : WallRunStep α → UMyCharacterMovementComponent α
  | WallRunStep.BeginWallRun => (c.BeginWallRun E).2
  | WallRunStep.EndWallRun => c.EndWallRun E
  | WallRunStep.OnActorHit n => c.OnActorHit E n
  | WallRunStep.PhysWallRunning dt => c.PhysWallRunning E dt
  | WallRunStep.ProcessLanded => c.ProcessLanded E

/-- The component after a finite sequence of steps, each with its own engine. -/
def runSteps {α : Type} [LinearOrderedField α] (c : UMyCharacterMovementComponent α) :
    List (Engine α × WallRunStep α) → UMyCharacterMovementComponent α
  | [] => c
  | (E, step) :: rest => runSteps (step.apply E c) rest

/-! ## Frame conditions on the base-class handler

The base-class `OnMovementModeChanged` is engine code. The properties below are the
assumptions about it under which the claims on mode changes are stated. -/

/-- The base-class mode-change handler leaves the movement-mode pair alone. -/
def Engine.SuperKeepsMode {α : Type} (E : Engine α) : Prop :=
  ∀ (pm : EMovementMode) (pc : Nat) (b : UCharacterMovementComponent α),
    (E.Super_OnMovementModeChanged pm pc b).MovementMode = b.MovementMode ∧
    (E.Super_OnMovementModeChanged pm pc b).CustomMovementMode = b.CustomMovementMode

/-- The base-class mode-change handler leaves the plane constraint alone. -/
def Engine.SuperKeepsPlaneConstraint {α : Type} (E : Engine α) : Prop :=
  ∀ (pm : EMovementMode) (pc : Nat) (b : UCharacterMovementComponent α),
    (E.Super_OnMovementModeChanged pm pc b).bConstrainToPlane = b.bConstrainToPlane ∧
    (E.Super_OnMovementModeChanged pm pc b).PlaneConstraintNormal = b.PlaneConstraintNormal

/-- The base-class mode-change handler leaves the velocity alone when the new mode is
a custom mode. -/
def Engine.SuperKeepsCustomVelocity {α : Type} (E : Engine α) : Prop :=
  ∀ (pm : EMovementMode) (pc : Nat) (b : UCharacterMovementComponent α),
    b.MovementMode = EMovementMode.MOVE_Custom →
    (E.Super_OnMovementModeChanged pm pc b).Velocity = b.Velocity

/-- The plane-constraint invariant: `bConstrainToPlane` is set exactly in
Custom(WallRunning). -/
def planeInvariant {α : Type} (c : UMyCharacterMovementComponent α) : Prop :=
  c.bConstrainToPlane = true ↔
    (c.MovementMode = EMovementMode.MOVE_Custom ∧
      c.CustomMovementMode = ECustomMovementMode.CMOVE_WallRunning.toUInt8)

/-- The base-class landing handler keeps the plane-constraint invariant (it changes the
mode through `SetMovementMode` only). -/
def Engine.SuperLandedKeepsInvariant {α : Type} (E : Engine α) : Prop :=
  ∀ c : UMyCharacterMovementComponent α, planeInvariant c → planeInvariant (E.Super_ProcessLanded c)

/-! ## Specification-side definitions -/

/-- The wall-run trigger condition as the specification words it: the character is
falling, the struck surface passes `CanSurfaceBeWallRan`, the prober with zero vertical
tolerance succeeds for the direction and side classified from the hit normal, and the
wall-run keys are down. -/
def triggerCondition {α : Type} [LinearOrderedField α] (E : Engine α)
    (c : UMyCharacterMovementComponent α) (ImpactNormal : FVector α) : Bool :=
  c.IsFalling && c.CanSurfaceBeWallRan E ImpactNormal &&
    (UMyCharacterMovementComponent.IsNextToWall E
      { c with
        WallRunDirection := (c.FindWallRunDirectionAndSide ImpactNormal).1
        WallRunSide := (c.FindWallRunDirectionAndSide ImpactNormal).2 } 0).1 &&
    c.WallRunKeysDown

/-- A point moved vertically by `dz`. -/
def FVector.raised {α : Type} [LinearOrderedField α] (v : FVector α) (dz : α) : FVector α :=
  ⟨v.X, v.Y, v.Z + dz⟩

/-- The hit the prober works with, as the specification words it: with a tolerance above
`FLT_EPSILON`, the hit of the run line raised by half the tolerance when that probe hits
and otherwise the hit of the run line lowered by half the tolerance; with no tolerance,
the hit of the single probe on the run line. The value is the impact normal, `none` when
nothing was hit. -/
def probedNormal {α : Type} [LinearOrderedField α] (E : Engine α)
    (c : UMyCharacterMovementComponent α) (t : α) : Option (FVector α) :=
  if t > FLT_EPSILON then
    match E.LineTraceSingleByChannel (c.traceStart.raised (t / 2)) (c.traceEnd.raised (t / 2)) with
    | some n => some n
    | none =>
      E.LineTraceSingleByChannel (c.traceStart.raised (-(t / 2))) (c.traceEnd.raised (-(t / 2)))
  else
    E.LineTraceSingleByChannel c.traceStart c.traceEnd

/-- The component as `OnActorHit` leaves it once the hit normal has been classified: the
direction and the side returned by `FindWallRunDirectionAndSide` are stored. -/
def classifiedHit {α : Type} [LinearOrderedField α] (c : UMyCharacterMovementComponent α)
    (ImpactNormal : FVector α) : UMyCharacterMovementComponent α :=
  { c with
    WallRunDirection := (c.FindWallRunDirectionAndSide ImpactNormal).1
    WallRunSide := (c.FindWallRunDirectionAndSide ImpactNormal).2 }

/-- The number `TickComponent` compares with 0.5, written out by components: the dot
product of the horizontal velocity with the horizontal forward vector, each normalised by
the engine's `Normalize`, which scales a vector by the inverse square root of its squared
length when that exceeds `SMALL_NUMBER` and leaves it as it is otherwise. -/
def sprintAlignment {α : Type} [LinearOrderedField α] (E : Engine α)
    (c : UMyCharacterMovementComponent α) : α :=
  (c.Velocity.X * c.PawnOwner.ActorForwardVector.X +
      c.Velocity.Y * c.PawnOwner.ActorForwardVector.Y) *
    ((if c.Velocity.X * c.Velocity.X + c.Velocity.Y * c.Velocity.Y > FVector.SMALL_NUMBER
        then E.InvSqrt (c.Velocity.X * c.Velocity.X + c.Velocity.Y * c.Velocity.Y) else 1) *
      (if c.PawnOwner.ActorForwardVector.X * c.PawnOwner.ActorForwardVector.X +
          c.PawnOwner.ActorForwardVector.Y * c.PawnOwner.ActorForwardVector.Y
            > FVector.SMALL_NUMBER
        then E.InvSqrt (c.PawnOwner.ActorForwardVector.X * c.PawnOwner.ActorForwardVector.X +
          c.PawnOwner.ActorForwardVector.Y * c.PawnOwner.ActorForwardVector.Y) else 1))

/-! ## Sample data

Concrete values at `α = ℚ`, used to evaluate the definitions. -/

/-- A sample pawn at the origin, facing +X, with +Y to its right. -/
def samplePawn : APawn ℚ :=
  { ActorLocation := ⟨0, 0, 0⟩, ActorRightVector := ⟨0, 1, 0⟩, ActorForwardVector := ⟨1, 0, 0⟩,
    bLocallyControlled := true, bIsCrouched := false }

/-- A sample component with the defaults of `MyCharacterMovementComponent.h`: falling,
unconstrained, no intent flag set. -/
def sampleComponent : UMyCharacterMovementComponent ℚ :=
  { MovementMode := EMovementMode.MOVE_Falling, CustomMovementMode := 0,
    Velocity := ⟨100, 0, -50⟩, bConstrainToPlane := false, PlaneConstraintNormal := ⟨0, 0, 0⟩,
    WalkableFloorAngle := 44765 / 1000, MaxWalkSpeedCrouched := 300, MaxSwimSpeed := 300,
    MaxFlySpeed := 600, MaxCustomMovementSpeed := 600, MaxAcceleration := 2048,
    PawnOwner := samplePawn,
    RunSpeed := 300, SprintSpeed := 800, RunAcceleration := 2000, SprintAcceleration := 2000,
    LineTraceVerticalTolerance := 50, WallRunSpeed := 625,
    WantsToSprint := false, WallRunKeysDown := false, SprintKeyDown := false,
    WallRunDirection := ⟨0, 0, 0⟩, WallRunSide := EWallRunSide.kLeft, Calls := [] }

/-- A sample engine: every probe hits a wall whose normal is `wallNormal`, moves are
unobstructed, base-class handlers do nothing, and the maths helpers are rational
stand-ins (`Acos` is the chord `(11/7)(1 - x)`, `InvSqrt` is constantly 1). -/
def sampleEngine (wallNormal : Option (FVector ℚ)) : Engine ℚ :=
  { Acos := fun x => 11 / 7 * (1 - x)
    InvSqrt := fun _ => 1
    LineTraceSingleByChannel := fun _ _ => wallNormal
    SafeMoveUpdatedComponent := fun d p => { p with ActorLocation := p.ActorLocation.add d }
    Super_OnMovementModeChanged := fun _ _ b => b
    Super_UpdateFromCompressedFlags := fun _ b => b
    Super_ProcessLanded := fun c => c }

/-- The normal of a sample wall to the character's left-hand run: it faces -Y and leans
slightly upward. -/
def sampleWall : FVector ℚ := ⟨0, -(9 / 10), 1 / 10⟩

/-- The sample component with the wall-run keys held. -/
def sampleKeysDown : UMyCharacterMovementComponent ℚ :=
  { sampleComponent with WallRunKeysDown := true }

/-- The sample component in the middle of a wall run along the sample wall, keys held. -/
def sampleWallRunning : UMyCharacterMovementComponent ℚ :=
  { sampleComponent with
    MovementMode := EMovementMode.MOVE_Custom
    CustomMovementMode := ECustomMovementMode.CMOVE_WallRunning.toUInt8
    Velocity := ⟨625, 0, 0⟩
    bConstrainToPlane := true
    PlaneConstraintNormal := ⟨0, 0, 1⟩
    WallRunKeysDown := true
    WallRunDirection := ⟨1, 0, 0⟩
    WallRunSide := EWallRunSide.kLeft }

/-- The sample component just after its mode pair was replaced by Custom(WallRunning),
before the notification ran: still moving, still unconstrained. -/
def sampleJustEntered : UMyCharacterMovementComponent ℚ :=
  { sampleKeysDown with
    MovementMode := EMovementMode.MOVE_Custom
    CustomMovementMode := ECustomMovementMode.CMOVE_WallRunning.toUInt8 }

/-- A component over any field with the defaults of `MyCharacterMovementComponent.h` and
the engine's default walkable-floor angle, 44.765 (in degrees): falling, at rest. -/
def defaultsComponent {α : Type} [LinearOrderedField α] : UMyCharacterMovementComponent α :=
  { MovementMode := EMovementMode.MOVE_Falling, CustomMovementMode := 0,
    Velocity := ⟨0, 0, 0⟩, bConstrainToPlane := false, PlaneConstraintNormal := ⟨0, 0, 0⟩,
    WalkableFloorAngle := 44765 / 1000, MaxWalkSpeedCrouched := 300, MaxSwimSpeed := 300,
    MaxFlySpeed := 600, MaxCustomMovementSpeed := 600, MaxAcceleration := 2048,
    PawnOwner :=
      { ActorLocation := ⟨0, 0, 0⟩, ActorRightVector := ⟨0, 1, 0⟩,
        ActorForwardVector := ⟨1, 0, 0⟩, bLocallyControlled := true, bIsCrouched := false },
    RunSpeed := 300, SprintSpeed := 800, RunAcceleration := 2000, SprintAcceleration := 2000,
    LineTraceVerticalTolerance := 50, WallRunSpeed := 625,
    WantsToSprint := false, WallRunKeysDown := false, SprintKeyDown := false,
    WallRunDirection := ⟨0, 0, 0⟩, WallRunSide := EWallRunSide.kLeft, Calls := [] }

/-- An engine over any field with the given maths helpers, an empty world, unobstructed
moves and base-class handlers that do nothing. -/
def plainEngine {α : Type} [LinearOrderedField α] (Acos InvSqrt : α → α) : Engine α :=
  { Acos := Acos
    InvSqrt := InvSqrt
    LineTraceSingleByChannel := fun _ _ => none
    SafeMoveUpdatedComponent := fun d p => { p with ActorLocation := p.ActorLocation.add d }
    Super_OnMovementModeChanged := fun _ _ b => b
    Super_UpdateFromCompressedFlags := fun _ b => b
    Super_ProcessLanded := fun c => c }

/-- The sample component walking on the ground, crouched, sprint not wanted. -/
def sampleCrouchedWalking : UMyCharacterMovementComponent ℚ :=
  { sampleComponent with
    MovementMode := EMovementMode.MOVE_Walking
    PawnOwner := { samplePawn with bIsCrouched := true } }

/-- A sample base-class acceleration getter: the `MaxAcceleration` field, as in the engine. -/
def sampleSuperGetMaxAcceleration (b : UCharacterMovementComponent ℚ) : ℚ :=
  b.MaxAcceleration

/-- Sample input settings: the action "Sprint" is bound to the keys 1 and 2, no other
action is bound. -/
def sampleMappings (ActionName : String) : List Nat :=
  if ActionName = "Sprint" then [1, 2] else []

/-- A sample key state: key 1 is held, every other key is up. -/
def sampleKeyState (key : Nat) : Bool :=
  key == 1

/-- The sample component with the sprint key flag set, moving straight ahead. -/
def sampleSprinting : UMyCharacterMovementComponent ℚ :=
  { sampleComponent with SprintKeyDown := true, Velocity := ⟨300, 0, 0⟩ }

/-- A sample run: the falling sample character, keys held, strikes the sample wall, runs
one tick along it, then the wall ends (every probe misses), a further request to begin is
made in mid-air, and the character lands. -/
def sampleSteps : List (Engine ℚ × WallRunStep ℚ) :=
  [(sampleEngine (some sampleWall), WallRunStep.OnActorHit sampleWall),
    (sampleEngine (some sampleWall), WallRunStep.PhysWallRunning (1 / 60)),
    (sampleEngine none, WallRunStep.PhysWallRunning (1 / 60)),
    (sampleEngine none, WallRunStep.BeginWallRun),
    (sampleEngine none, WallRunStep.ProcessLanded)]

/-- A wall round the corner from the sample wall: its normal faces +Y, so it classifies
as Right for the sample character. -/
def sampleCornerWall : FVector ℚ := ⟨0, 9 / 10, 1 / 10⟩

/-- A sample inverse square root over the rationals: exact on the squared lengths the
sprint samples produce (1 and 90000), 1 elsewhere. -/
def sampleInvSqrt (s : ℚ) : ℚ :=
  if s = 90000 then 1 / 300 else 1

/-- The sample engine with the sample inverse square root and an empty world. -/
def exactSampleEngine : Engine ℚ :=
  plainEngine (fun x => 11 / 7 * (1 - x)) sampleInvSqrt

/-- A buffered saved move recorded on an earlier tick, when sprint was not wanted and the
wall-run keys were up. -/
def sampleBufferedMove : FSavedMove_My Unit :=
  { Super := (), SavedWantsToSprint := false, SavedWallRunKeysDown := false }

/-- A sample base-class tick on a client that has just received a correction: it replays
the buffered move, which starts with the move's `PrepMoveFor` (the base-class part of
`PrepMoveFor` doing nothing). -/
def sampleReplayTick (c : UMyCharacterMovementComponent ℚ) : UMyCharacterMovementComponent ℚ :=
  FSavedMove_My.PrepMoveFor (fun _ b => b) sampleBufferedMove c

/-- The defaults component over any field with the sprint key flag set and the given
velocity; it faces +X. -/
def sprintingWith {α : Type} [LinearOrderedField α] (v : FVector α) :
    UMyCharacterMovementComponent α :=
  { (defaultsComponent : UMyCharacterMovementComponent α) with
    SprintKeyDown := true, Velocity := v }

/-! ## Flag-byte lemmas -/

/-- Masking with a single bit is non-zero exactly when that bit is set. -/
theorem and_two_pow_bne_zero (x k : Nat) : ((x &&& 2 ^ k) != 0) = x.testBit k := by
  have h : x &&& 2 ^ k = if x.testBit k then 2 ^ k else 0 := by
    apply Nat.eq_of_testBit_eq
    intro i
    by_cases hx : x.testBit k
    · simp only [Nat.testBit_and, hx, if_true, Nat.testBit_two_pow]
      by_cases hki : k = i
      · subst hki; simp [hx]
      · simp [hki]
    · simp only [Nat.testBit_and, hx, Nat.testBit_two_pow, Nat.zero_testBit]
      by_cases hki : k = i
      · subst hki; simp [hx]
      · simp [hki]
  rw [h]
  by_cases hx : x.testBit k
  · simp [hx]
  · simp [hx]

/-- Reading the first custom bit is reading bit 4. -/
theorem custom_0_read (x : Nat) : ((x &&& FLAG_Custom_0) != 0) = x.testBit 4 := by
  have h := and_two_pow_bne_zero x 4
  norm_num at h
  simpa [FLAG_Custom_0] using h

/-- Reading the second custom bit is reading bit 5. -/
theorem custom_1_read (x : Nat) : ((x &&& FLAG_Custom_1) != 0) = x.testBit 5 := by
  have h := and_two_pow_bne_zero x 5
  norm_num at h
  simpa [FLAG_Custom_1] using h

/-- A clear first custom bit, stated with the mask, is a clear bit 4. -/
theorem custom_0_clear {b : Nat} (h : b &&& FLAG_Custom_0 = 0) : b.testBit 4 = false := by
  rw [← custom_0_read, h]; rfl

/-- A clear second custom bit, stated with the mask, is a clear bit 5. -/
theorem custom_1_clear {b : Nat} (h : b &&& FLAG_Custom_1 = 0) : b.testBit 5 = false := by
  rw [← custom_1_read, h]; rfl

/-- The bits of the encoded byte: the base bits, with bit 4 and bit 5 OR-ed in. -/
theorem GetCompressedFlags_testBit {σ : Type} (f : σ → Nat) (m : FSavedMove_My σ) (i : Nat) :
    (FSavedMove_My.GetCompressedFlags f m).testBit i =
      ((f m.Super).testBit i || (m.SavedWantsToSprint && decide (i = 4)) ||
        (m.SavedWallRunKeysDown && decide (i = 5))) := by
  have t16 : Nat.testBit 16 i = decide (i = 4) := by
    have h := @Nat.testBit_two_pow 4 i
    simpa [eq_comm] using h
  have t32 : Nat.testBit 32 i = decide (i = 5) := by
    have h := @Nat.testBit_two_pow 5 i
    simpa [eq_comm] using h
  unfold FSavedMove_My.GetCompressedFlags
  cases hs : m.SavedWantsToSprint <;> cases hw : m.SavedWallRunKeysDown <;>
    simp [FLAG_Custom_0, FLAG_Custom_1, t16, t32]

/-! ## Frame lemmas -/

section Frames

variable {α : Type} [LinearOrderedField α]

open UMyCharacterMovementComponent

/-- The reclassification step only writes `WallRunDirection`. -/
theorem sideCheck_snd (c : UMyCharacterMovementComponent α) (n : FVector α) :
    (sideCheck c n).2 = { c with WallRunDirection := (FindWallRunDirectionAndSide c n).1 } := by
  unfold sideCheck
  simp only []
  split_ifs <;> rfl

/-- The reclassification step succeeds exactly when the recomputed side is the stored one. -/
theorem sideCheck_fst (c : UMyCharacterMovementComponent α) (n : FVector α) :
    (sideCheck c n).1 = decide ((FindWallRunDirectionAndSide c n).2 = c.WallRunSide) := by
  unfold sideCheck
  simp only []
  split_ifs with h <;> simp_all

/-- The prober only writes `WallRunDirection` and the call record. -/
theorem IsNextToWall_frame (E : Engine α) (c : UMyCharacterMovementComponent α) (t : α) :
    ∃ (d : FVector α) (calls : List (EngineCall α)),
      (IsNextToWall E c t).2 = { c with WallRunDirection := d, Calls := calls } := by
  unfold IsNextToWall
  simp only [lineTrace]
  split_ifs
  · split
    · rw [sideCheck_snd]; exact ⟨_, _, rfl⟩
    · split
      · rw [sideCheck_snd]; exact ⟨_, _, rfl⟩
      · exact ⟨c.WallRunDirection, _, rfl⟩
  · split
    · rw [sideCheck_snd]; exact ⟨_, _, rfl⟩
    · exact ⟨c.WallRunDirection, _, rfl⟩

/-- The derived handler passes the mode pair through when the base handler does. -/
theorem OnMovementModeChanged_mode (E : Engine α) (hE : E.SuperKeepsMode)
    (c : UMyCharacterMovementComponent α) (pm : EMovementMode) (pc : Nat) :
    (OnMovementModeChanged E c pm pc).MovementMode = c.MovementMode ∧
    (OnMovementModeChanged E c pm pc).CustomMovementMode = c.CustomMovementMode := by
  unfold OnMovementModeChanged
  simp only [(hE _ _ _).1, (hE _ _ _).2]
  split_ifs <;> simp [SetPlaneConstraintNormal, StopMovementImmediately]

/-- A request to enter a custom mode ends in that custom mode. -/
theorem SetMovementMode_custom (E : Engine α) (hE : E.SuperKeepsMode)
    (c : UMyCharacterMovementComponent α) (k : Nat) :
    (SetMovementMode E c EMovementMode.MOVE_Custom k).MovementMode = EMovementMode.MOVE_Custom ∧
    (SetMovementMode E c EMovementMode.MOVE_Custom k).CustomMovementMode = k := by
  unfold SetMovementMode
  simp only [if_true]
  split_ifs with h
  · exact ⟨h.1, by rcases h.2 with h2 | h2; exact absurd rfl h2; exact h2.symm⟩
  · exact OnMovementModeChanged_mode E hE _ _ _

/-- A request to leave for a different, non-custom mode ends in that mode with custom id 0. -/
theorem SetMovementMode_other (E : Engine α) (hE : E.SuperKeepsMode)
    (c : UMyCharacterMovementComponent α) (m : EMovementMode) (k : Nat)
    (hm : m ≠ EMovementMode.MOVE_Custom) (hc : c.MovementMode ≠ m) :
    (SetMovementMode E c m k).MovementMode = m ∧
    (SetMovementMode E c m k).CustomMovementMode = 0 := by
  unfold SetMovementMode
  simp only [if_neg hm]
  rw [if_neg (fun h => hc h.1)]
  exact OnMovementModeChanged_mode E hE _ _ _

/-- The derived mode-change handler only writes base-class fields. -/
theorem OnMovementModeChanged_derived (E : Engine α) (c : UMyCharacterMovementComponent α)
    (pm : EMovementMode) (pc : Nat) :
    OnMovementModeChanged E c pm pc =
      { c with toUCharacterMovementComponent :=
          (OnMovementModeChanged E c pm pc).toUCharacterMovementComponent } := by
  unfold OnMovementModeChanged
  split_ifs <;> rfl

/-- The base-class part after the derived handler depends on the base-class part only. -/
theorem OnMovementModeChanged_base_congr (E : Engine α)
    (c c2 : UMyCharacterMovementComponent α) (pm : EMovementMode) (pc : Nat)
    (h : c.toUCharacterMovementComponent = c2.toUCharacterMovementComponent) :
    (OnMovementModeChanged E c pm pc).toUCharacterMovementComponent =
      (OnMovementModeChanged E c2 pm pc).toUCharacterMovementComponent := by
  have hm : c.MovementMode = c2.MovementMode := by rw [h]
  have hc : c.CustomMovementMode = c2.CustomMovementMode := by rw [h]
  unfold OnMovementModeChanged
  simp only [hm, hc]
  split_ifs <;> simp [SetPlaneConstraintNormal, StopMovementImmediately, h]

/-- A mode request only writes base-class fields. -/
theorem SetMovementMode_derived (E : Engine α) (c : UMyCharacterMovementComponent α)
    (m : EMovementMode) (k : Nat) :
    SetMovementMode E c m k =
      { c with toUCharacterMovementComponent :=
          (SetMovementMode E c m k).toUCharacterMovementComponent } := by
  unfold SetMovementMode
  simp only []
  split_ifs <;> first | rfl | exact OnMovementModeChanged_derived E _ _ _

/-- The base-class part after a mode request depends on the base-class part only. -/
theorem SetMovementMode_base_congr (E : Engine α) (c c2 : UMyCharacterMovementComponent α)
    (m : EMovementMode) (k : Nat)
    (h : c.toUCharacterMovementComponent = c2.toUCharacterMovementComponent) :
    (SetMovementMode E c m k).toUCharacterMovementComponent =
      (SetMovementMode E c2 m k).toUCharacterMovementComponent := by
  have hm : c.MovementMode = c2.MovementMode := by rw [h]
  have hc : c.CustomMovementMode = c2.CustomMovementMode := by rw [h]
  unfold SetMovementMode
  simp only [hm, hc]
  split_ifs <;>
    first | exact h | exact OnMovementModeChanged_base_congr E _ _ _ _ (by simp [h])

/-- Ending a wall run from Custom(WallRunning) lands in Falling with the plane
constraint released, when the base handler keeps the mode and the constraint. -/
theorem EndWallRun_of_wallRunning (E : Engine α) (hM : E.SuperKeepsMode)
    (hP : E.SuperKeepsPlaneConstraint) (c : UMyCharacterMovementComponent α)
    (h : c.IsCustomMovementMode ECustomMovementMode.CMOVE_WallRunning.toUInt8 = true) :
    (EndWallRun E c).MovementMode = EMovementMode.MOVE_Falling ∧
    (EndWallRun E c).CustomMovementMode = 0 ∧
    (EndWallRun E c).bConstrainToPlane = false := by
  simp only [IsCustomMovementMode, Bool.and_eq_true, beq_iff_eq] at h
  obtain ⟨hm, hc⟩ := h
  have hne : c.MovementMode ≠ EMovementMode.MOVE_Falling := by rw [hm]; decide
  refine ⟨(SetMovementMode_other E hM c _ 0 (by decide) hne).1,
    (SetMovementMode_other E hM c _ 0 (by decide) hne).2, ?_⟩
  unfold EndWallRun SetMovementMode
  simp only [hm]
  rw [if_neg (fun h => absurd h.1 (by decide))]
  unfold OnMovementModeChanged
  simp only [(hP _ _ _).1, hc]
  simp [ECustomMovementMode.toUInt8]

/-- The calls the prober adds to the record are line probes. -/
theorem IsNextToWall_calls (E : Engine α) (c : UMyCharacterMovementComponent α) (t : α) :
    ∃ l : List (EngineCall α), (IsNextToWall E c t).2.Calls = c.Calls ++ l ∧
      ∀ e ∈ l, ∃ a b, e = EngineCall.LineTrace a b := by
  unfold IsNextToWall
  simp only [lineTrace]
  split_ifs
  · split
    · rw [sideCheck_snd]; exact ⟨[_], rfl, by simp⟩
    · have two : ∀ (x y e : EngineCall α), (∃ a b, x = EngineCall.LineTrace a b) →
          (∃ a b, y = EngineCall.LineTrace a b) → e ∈ [x] ++ [y] →
          ∃ a b, e = EngineCall.LineTrace a b := by
        intro x y e hx hy he
        simp only [List.singleton_append, List.mem_cons, List.mem_singleton, List.not_mem_nil,
          or_false] at he
        rcases he with rfl | rfl
        · exact hx
        · exact hy
      split
      · rw [sideCheck_snd]
        exact ⟨_, List.append_assoc _ _ _, fun e he => two _ _ e ⟨_, _, rfl⟩ ⟨_, _, rfl⟩ he⟩
      · exact ⟨_, List.append_assoc _ _ _, fun e he => two _ _ e ⟨_, _, rfl⟩ ⟨_, _, rfl⟩ he⟩
  · split
    · rw [sideCheck_snd]; exact ⟨[_], rfl, by simp⟩
    · exact ⟨[_], rfl, by simp⟩

end Frames

/-! ## Claims -/

section Claims

variable {σ α : Type}

open UMyCharacterMovementComponent

/-- C1. Compression round trip: for every pair of booleans `s`, `w` and every base part
whose flag byte has the bits 0x10 and 0x20 clear, encoding a saved move that holds
`SavedWantsToSprint = s`, `SavedWallRunKeysDown = w` with `GetCompressedFlags` and decoding
the byte with `UpdateFromCompressedFlags` leaves the component with `WantsToSprint = s`
and `WallRunKeysDown = w`, whatever the component held before and whatever the base-class
decoder does. -/
theorem compressed_flags_round_trip (E : Engine α) (Super_GetCompressedFlags : σ → Nat)
    (base : σ) (s w : Bool) (c : UMyCharacterMovementComponent α)
    (h0 : Super_GetCompressedFlags base &&& FLAG_Custom_0 = 0)
    (h1 : Super_GetCompressedFlags base &&& FLAG_Custom_1 = 0) :
    (UpdateFromCompressedFlags E c
        (FSavedMove_My.GetCompressedFlags Super_GetCompressedFlags
          { Super := base, SavedWantsToSprint := s, SavedWallRunKeysDown := w })).WantsToSprint = s ∧
    (UpdateFromCompressedFlags E c
        (FSavedMove_My.GetCompressedFlags Super_GetCompressedFlags
          { Super := base, SavedWantsToSprint := s, SavedWallRunKeysDown := w })).WallRunKeysDown
      = w := by
  have b4 := custom_0_clear h0
  have b5 := custom_1_clear h1
  simp only [UpdateFromCompressedFlags, custom_0_read, custom_1_read,
    GetCompressedFlags_testBit, b4, b5]
  simp

/-- C1 at a concrete input: base byte 5 (bits 0 and 2), sprint wanted, wall-run keys up. -/
theorem compressed_flags_round_trip_witness :
    ((5 : Nat) &&& FLAG_Custom_0 = 0 ∧ (5 : Nat) &&& FLAG_Custom_1 = 0) ∧
    ((UpdateFromCompressedFlags (sampleEngine none) sampleComponent
        (FSavedMove_My.GetCompressedFlags (fun b : Nat => b)
          { Super := 5, SavedWantsToSprint := true, SavedWallRunKeysDown := false })).WantsToSprint
        = true ∧
      (UpdateFromCompressedFlags (sampleEngine none) sampleComponent
        (FSavedMove_My.GetCompressedFlags (fun b : Nat => b)
          { Super := 5, SavedWantsToSprint := true, SavedWallRunKeysDown := false })).WallRunKeysDown
        = false) :=
  ⟨⟨by decide, by decide⟩,
    compressed_flags_round_trip (sampleEngine none) (fun b : Nat => b) 5 true false
      sampleComponent (by decide) (by decide)⟩

/-- C2. Combine refusal: two saved moves that differ in `SavedWantsToSprint` or in
`SavedWallRunKeysDown` cannot be combined, whatever the base combine rule answers; two
moves that agree on both flags can be combined exactly when the base rule says so. -/
theorem can_combine_with_refusal
    (Super_CanCombineWith : FSavedMove_My σ → FSavedMove_My σ → Bool)
    (A B : FSavedMove_My σ) :
    ((A.SavedWantsToSprint ≠ B.SavedWantsToSprint ∨
        A.SavedWallRunKeysDown ≠ B.SavedWallRunKeysDown) →
      FSavedMove_My.CanCombineWith Super_CanCombineWith A B = false) ∧
    ((A.SavedWantsToSprint = B.SavedWantsToSprint ∧
        A.SavedWallRunKeysDown = B.SavedWallRunKeysDown) →
      FSavedMove_My.CanCombineWith Super_CanCombineWith A B = Super_CanCombineWith A B) := by
  unfold FSavedMove_My.CanCombineWith
  constructor
  · intro h
    rcases h with h | h
    · simp [h]
    · simp [h]
  · rintro ⟨h1, h2⟩
    simp [h1, h2]

/-- C3. Wall-run trigger: provided the base-class mode-change handler leaves the mode
pair alone, `OnActorHit` ends in Custom(WallRunning) from a state that was not
wall-running exactly when the trigger condition holds (falling, surface accepted, prober
with zero tolerance succeeds for the classified direction and side, keys down); when the
condition fails, the movement mode and the custom mode id are unchanged. -/
theorem on_actor_hit_trigger [LinearOrderedField α] (E : Engine α) (hE : E.SuperKeepsMode)
    (c : UMyCharacterMovementComponent α) (n : FVector α) :
    (triggerCondition E c n = true →
      (OnActorHit E c n).MovementMode = EMovementMode.MOVE_Custom ∧
      (OnActorHit E c n).CustomMovementMode = ECustomMovementMode.CMOVE_WallRunning.toUInt8 ∧
      c.MovementMode = EMovementMode.MOVE_Falling) ∧
    (triggerCondition E c n = false →
      (OnActorHit E c n).MovementMode = c.MovementMode ∧
      (OnActorHit E c n).CustomMovementMode = c.CustomMovementMode) ∧
    (((OnActorHit E c n).IsCustomMovementMode ECustomMovementMode.CMOVE_WallRunning.toUInt8 = true ∧
        c.IsCustomMovementMode ECustomMovementMode.CMOVE_WallRunning.toUInt8 = false) ↔
      triggerCondition E c n = true) := by
  obtain ⟨d, calls, hp⟩ := IsNextToWall_frame E
    { c with
      WallRunDirection := (c.FindWallRunDirectionAndSide n).1
      WallRunSide := (c.FindWallRunDirectionAndSide n).2 } 0
  have hpos : triggerCondition E c n = true →
      (OnActorHit E c n).MovementMode = EMovementMode.MOVE_Custom ∧
      (OnActorHit E c n).CustomMovementMode = ECustomMovementMode.CMOVE_WallRunning.toUInt8 ∧
      c.MovementMode = EMovementMode.MOVE_Falling := by
    intro h
    simp only [triggerCondition, Bool.and_eq_true] at h
    obtain ⟨⟨⟨hf, hs⟩, hw⟩, hk⟩ := h
    have hfall : c.MovementMode = EMovementMode.MOVE_Falling := by
      simpa [IsFalling] using hf
    have hnc : c.IsCustomMovementMode ECustomMovementMode.CMOVE_WallRunning.toUInt8 = false := by
      simp [IsCustomMovementMode, hfall]
    have hk2 : (IsNextToWall E
      { c with
        WallRunDirection := (c.FindWallRunDirectionAndSide n).1
        WallRunSide := (c.FindWallRunDirectionAndSide n).2 } 0).2.WallRunKeysDown = true := by
      rw [hp]; exact hk
    unfold OnActorHit
    simp only [hnc, hf, hs, hw, BeginWallRun, hk2]
    simp only [Bool.false_eq_true, if_false, beq_self_eq_true, if_true, beq_iff_eq]
    exact ⟨(SetMovementMode_custom E hE _ _).1, (SetMovementMode_custom E hE _ _).2, hfall⟩
  have hneg : triggerCondition E c n = false →
      (OnActorHit E c n).MovementMode = c.MovementMode ∧
      (OnActorHit E c n).CustomMovementMode = c.CustomMovementMode := by
    intro h
    unfold OnActorHit
    by_cases h1 : c.IsCustomMovementMode ECustomMovementMode.CMOVE_WallRunning.toUInt8 = true
    · simp [h1]
    by_cases h2 : c.IsFalling = true
    swap
    · simp [h1, h2]
    by_cases h3 : c.CanSurfaceBeWallRan E n = true
    swap
    · simp [h1, h2, h3]
    by_cases h4 : (IsNextToWall E
      { c with
        WallRunDirection := (c.FindWallRunDirectionAndSide n).1
        WallRunSide := (c.FindWallRunDirectionAndSide n).2 } 0).1 = true
    swap
    · simp only [h1, h2, h3, h4]
      simp [hp]
    have h5 : c.WallRunKeysDown = false := by
      simpa [triggerCondition, h2, h3, h4] using h
    have hk2 : (IsNextToWall E
      { c with
        WallRunDirection := (c.FindWallRunDirectionAndSide n).1
        WallRunSide := (c.FindWallRunDirectionAndSide n).2 } 0).2.WallRunKeysDown = false := by
      rw [hp]; exact h5
    simp only [h1, h2, h3, h4, BeginWallRun, hk2]
    simp [hp]
  refine ⟨hpos, hneg, ?_⟩
  constructor
  · rintro ⟨ha, hb⟩
    by_contra hc
    have hc2 : triggerCondition E c n = false := by simpa using hc
    obtain ⟨hm, hcm⟩ := hneg hc2
    simp only [IsCustomMovementMode, hm, hcm] at ha
    simp only [IsCustomMovementMode] at hb
    rw [ha] at hb
    exact Bool.noConfusion hb
  · intro h
    obtain ⟨hm, hcm, hf⟩ := hpos h
    constructor
    · simp [IsCustomMovementMode, hm, hcm]
    · simp [IsCustomMovementMode, hf]

/-- C3 at a concrete input: the falling sample character, keys held, strikes the sample
wall and every probe finds that wall; the handler ends in Custom(WallRunning). -/
theorem on_actor_hit_trigger_witness :
    (sampleEngine (some sampleWall)).SuperKeepsMode ∧
    triggerCondition (sampleEngine (some sampleWall)) sampleKeysDown sampleWall = true ∧
    (OnActorHit (sampleEngine (some sampleWall)) sampleKeysDown sampleWall).MovementMode
      = EMovementMode.MOVE_Custom ∧
    (OnActorHit (sampleEngine (some sampleWall)) sampleKeysDown sampleWall).CustomMovementMode
      = ECustomMovementMode.CMOVE_WallRunning.toUInt8 :=
  have hE : (sampleEngine (some sampleWall)).SuperKeepsMode := fun _ _ _ => ⟨rfl, rfl⟩
  have ht : triggerCondition (sampleEngine (some sampleWall)) sampleKeysDown sampleWall = true := by
    norm_num [triggerCondition, IsFalling, CanSurfaceBeWallRan, IsNextToWall, lineTrace,
      sideCheck, FindWallRunDirectionAndSide, GetWalkableFloorAngle, sampleEngine,
      sampleKeysDown, sampleComponent, samplePawn, sampleWall, FVector.Normalize,
      FVector.DotProduct, FVector.DotProduct2D, FVector.scale, FVector.SMALL_NUMBER,
      FLT_EPSILON]
  have h := (on_actor_hit_trigger (sampleEngine (some sampleWall)) hE sampleKeysDown sampleWall).1 ht
  ⟨hE, ht, h.1, h.2.1⟩

/-- C4. Sustain cancellation: in a wall-running state, when `WallRunKeysDown` is false or
the prober with `LineTraceVerticalTolerance` fails, `PhysWallRunning` ends in Falling with
`bConstrainToPlane` false (base handler keeping the mode and the constraint); the
base-class state, velocity and pawn included, is exactly what `EndWallRun` makes of the
incoming state, so no wall-run velocity was assigned and no move took effect; the calls
added to the record are line probes only, and none at all when the keys are up. -/
theorem phys_wall_running_cancel [LinearOrderedField α] (E : Engine α)
    (hM : E.SuperKeepsMode) (hP : E.SuperKeepsPlaneConstraint)
    (c : UMyCharacterMovementComponent α) (deltaTime : α)
    (hwr : c.IsCustomMovementMode ECustomMovementMode.CMOVE_WallRunning.toUInt8 = true)
    (hcancel : c.WallRunKeysDown = false ∨
      (IsNextToWall E c c.LineTraceVerticalTolerance).1 = false) :
    (PhysWallRunning E c deltaTime).MovementMode = EMovementMode.MOVE_Falling ∧
    (PhysWallRunning E c deltaTime).bConstrainToPlane = false ∧
    (PhysWallRunning E c deltaTime).toUCharacterMovementComponent =
      (EndWallRun E c).toUCharacterMovementComponent ∧
    (∃ l : List (EngineCall α), (PhysWallRunning E c deltaTime).Calls = c.Calls ++ l ∧
      ∀ e ∈ l, ∃ a b, e = EngineCall.LineTrace a b) ∧
    (c.WallRunKeysDown = false → (PhysWallRunning E c deltaTime).Calls = c.Calls) := by
  have hend := EndWallRun_of_wallRunning E hM hP c hwr
  cases hk : c.WallRunKeysDown with
  | false =>
    have hrun : PhysWallRunning E c deltaTime = EndWallRun E c := by
      unfold PhysWallRunning
      simp [hk]
    have hcalls : (EndWallRun E c).Calls = c.Calls := by
      unfold EndWallRun
      rw [SetMovementMode_derived]
    rw [hrun]
    exact ⟨hend.1, hend.2.2, rfl, ⟨[], by simp [hcalls], by simp⟩, fun _ => hcalls⟩
  | true =>
    have hprobe : (IsNextToWall E c c.LineTraceVerticalTolerance).1 = false := by
      rcases hcancel with h | h
      · rw [hk] at h; exact Bool.noConfusion h
      · exact h
    have hrun : PhysWallRunning E c deltaTime =
        EndWallRun E (IsNextToWall E c c.LineTraceVerticalTolerance).2 := by
      unfold PhysWallRunning
      simp [hk, hprobe]
    obtain ⟨d, calls, hp⟩ := IsNextToWall_frame E c c.LineTraceVerticalTolerance
    obtain ⟨l, hl, hall⟩ := IsNextToWall_calls E c c.LineTraceVerticalTolerance
    have hbase : (IsNextToWall E c c.LineTraceVerticalTolerance).2.toUCharacterMovementComponent
        = c.toUCharacterMovementComponent := by rw [hp]
    have hsame : (EndWallRun E (IsNextToWall E c c.LineTraceVerticalTolerance).2
        ).toUCharacterMovementComponent = (EndWallRun E c).toUCharacterMovementComponent :=
      SetMovementMode_base_congr E _ _ _ _ hbase
    have hcalls : (EndWallRun E (IsNextToWall E c c.LineTraceVerticalTolerance).2).Calls
        = (IsNextToWall E c c.LineTraceVerticalTolerance).2.Calls := by
      unfold EndWallRun
      rw [SetMovementMode_derived]
    have hmode : (EndWallRun E (IsNextToWall E c c.LineTraceVerticalTolerance).2).MovementMode
        = (EndWallRun E c).MovementMode := by
      show (EndWallRun E _).toUCharacterMovementComponent.MovementMode = _
      rw [hsame]
    have hplane : (EndWallRun E (IsNextToWall E c c.LineTraceVerticalTolerance).2
        ).bConstrainToPlane = (EndWallRun E c).bConstrainToPlane := by
      show (EndWallRun E _).toUCharacterMovementComponent.bConstrainToPlane = _
      rw [hsame]
    rw [hrun]
    refine ⟨hmode.trans hend.1, hplane.trans hend.2.2, hsame, ⟨l, hcalls.trans hl, hall⟩, ?_⟩
    intro h
    exact Bool.noConfusion h

/-- C4 at a concrete input: the sample wall run, keys held, in a world where every probe
misses; the tick ends in Falling, unconstrained, with the two probes as the only calls. -/
theorem phys_wall_running_cancel_witness :
    (sampleEngine none).SuperKeepsMode ∧ (sampleEngine none).SuperKeepsPlaneConstraint ∧
    sampleWallRunning.IsCustomMovementMode ECustomMovementMode.CMOVE_WallRunning.toUInt8 = true ∧
    (IsNextToWall (sampleEngine none) sampleWallRunning
      sampleWallRunning.LineTraceVerticalTolerance).1 = false ∧
    (PhysWallRunning (sampleEngine none) sampleWallRunning (1 / 60)).MovementMode
      = EMovementMode.MOVE_Falling ∧
    (PhysWallRunning (sampleEngine none) sampleWallRunning (1 / 60)).bConstrainToPlane = false :=
  have hM : (sampleEngine none).SuperKeepsMode := fun _ _ _ => ⟨rfl, rfl⟩
  have hP : (sampleEngine none).SuperKeepsPlaneConstraint := fun _ _ _ => ⟨rfl, rfl⟩
  have hw : sampleWallRunning.IsCustomMovementMode
      ECustomMovementMode.CMOVE_WallRunning.toUInt8 = true := by decide
  have hp : (IsNextToWall (sampleEngine none) sampleWallRunning
      sampleWallRunning.LineTraceVerticalTolerance).1 = false := by
    norm_num [IsNextToWall, lineTrace, sampleEngine, sampleWallRunning, sampleComponent,
      FLT_EPSILON]
  have h := phys_wall_running_cancel (sampleEngine none) hM hP sampleWallRunning (1 / 60) hw
    (Or.inr hp)
  ⟨hM, hP, hw, hp, h.1, h.2.1⟩

/-- C5. Mode-change effects: provided the base-class handler leaves the plane constraint
alone and leaves the velocity alone in a custom mode, a notification whose new mode is
Custom(WallRunning) and whose previous mode is anything else leaves the velocity zero,
`bConstrainToPlane` true and the constraint normal (0,0,1); a notification whose previous
mode is Custom(WallRunning) leaves `bConstrainToPlane` false, in particular when the new
mode is anything else. -/
theorem on_movement_mode_changed_effects [LinearOrderedField α] (E : Engine α)
    (hP : E.SuperKeepsPlaneConstraint) (hV : E.SuperKeepsCustomVelocity)
    (c : UMyCharacterMovementComponent α) (PreviousMovementMode : EMovementMode)
    (PreviousCustomMode : Nat) :
    (c.IsCustomMovementMode ECustomMovementMode.CMOVE_WallRunning.toUInt8 = true →
      ¬ (PreviousMovementMode = EMovementMode.MOVE_Custom ∧
          PreviousCustomMode = ECustomMovementMode.CMOVE_WallRunning.toUInt8) →
      (OnMovementModeChanged E c PreviousMovementMode PreviousCustomMode).Velocity
        = FVector.ZeroVector ∧
      (OnMovementModeChanged E c PreviousMovementMode PreviousCustomMode).bConstrainToPlane
        = true ∧
      (OnMovementModeChanged E c PreviousMovementMode PreviousCustomMode).PlaneConstraintNormal
        = ⟨0, 0, 1⟩) ∧
    (PreviousMovementMode = EMovementMode.MOVE_Custom →
      PreviousCustomMode = ECustomMovementMode.CMOVE_WallRunning.toUInt8 →
      (OnMovementModeChanged E c PreviousMovementMode PreviousCustomMode).bConstrainToPlane
        = false) := by
  constructor
  · intro hnew hprev
    simp only [IsCustomMovementMode, Bool.and_eq_true, beq_iff_eq] at hnew
    obtain ⟨hm, hc⟩ := hnew
    have hsafe : FVector.GetSafeNormal E.InvSqrt (⟨0, 0, 1⟩ : FVector α) = ⟨0, 0, 1⟩ := by
      simp [FVector.GetSafeNormal]
    unfold OnMovementModeChanged
    simp only [(hP _ _ _).1, (hP _ _ _).2, hm, hc, if_true]
    by_cases h1 : PreviousMovementMode = EMovementMode.MOVE_Custom
    · have h2 : ¬ PreviousCustomMode = ECustomMovementMode.CMOVE_WallRunning.toUInt8 :=
        fun h => hprev ⟨h1, h⟩
      simp only [h1, h2, if_true, if_false]
      refine ⟨?_, rfl, hsafe⟩
      rw [hV _ _ _ (by simp [SetPlaneConstraintNormal, StopMovementImmediately, hm])]
      rfl
    · simp only [h1, if_false]
      refine ⟨?_, rfl, hsafe⟩
      rw [hV _ _ _ (by simp [SetPlaneConstraintNormal, StopMovementImmediately, hm])]
      rfl
  · intro hpm hpc
    unfold OnMovementModeChanged
    simp only [(hP _ _ _).1, hpm, hpc, if_true]

/-- C5 at a concrete input: the notification for Falling to Custom(WallRunning) on the
sample component zeroes its velocity (100, 0, -50) and constrains it to the plane. -/
theorem on_movement_mode_changed_effects_witness :
    (sampleEngine none).SuperKeepsPlaneConstraint ∧ (sampleEngine none).SuperKeepsCustomVelocity ∧
    sampleJustEntered.Velocity = ⟨100, 0, -50⟩ ∧ sampleJustEntered.bConstrainToPlane = false ∧
    (OnMovementModeChanged (sampleEngine none) sampleJustEntered EMovementMode.MOVE_Falling 0).Velocity
      = FVector.ZeroVector ∧
    (OnMovementModeChanged (sampleEngine none) sampleJustEntered
      EMovementMode.MOVE_Falling 0).bConstrainToPlane = true ∧
    (OnMovementModeChanged (sampleEngine none) sampleJustEntered
      EMovementMode.MOVE_Falling 0).PlaneConstraintNormal = ⟨0, 0, 1⟩ :=
  have hP : (sampleEngine none).SuperKeepsPlaneConstraint := fun _ _ _ => ⟨rfl, rfl⟩
  have hV : (sampleEngine none).SuperKeepsCustomVelocity := fun _ _ _ _ => rfl
  have h := (on_movement_mode_changed_effects (sampleEngine none) hP hV sampleJustEntered
    EMovementMode.MOVE_Falling 0).1 (by decide) (by decide)
  ⟨hP, hV, rfl, rfl, h.1, h.2.1, h.2.2⟩

/-- C9. Landing interrupt: provided the base-class mode-change handler leaves the mode pair
alone, after `ProcessLanded` the character is not in Custom(WallRunning), whatever the base
landing handler did and whatever the intent flags and the world are; when the base landing
handler left it in Custom(WallRunning) the resulting mode is Falling, and when it left it in
any other mode `ProcessLanded` changes nothing further. -/
theorem process_landed_interrupt [LinearOrderedField α] (E : Engine α) (hM : E.SuperKeepsMode)
    (c : UMyCharacterMovementComponent α) :
    (ProcessLanded E c).IsCustomMovementMode ECustomMovementMode.CMOVE_WallRunning.toUInt8
      = false ∧
    ((E.Super_ProcessLanded c).IsCustomMovementMode
        ECustomMovementMode.CMOVE_WallRunning.toUInt8 = true →
      (ProcessLanded E c).MovementMode = EMovementMode.MOVE_Falling) ∧
    ((E.Super_ProcessLanded c).IsCustomMovementMode
        ECustomMovementMode.CMOVE_WallRunning.toUInt8 = false →
      ProcessLanded E c = E.Super_ProcessLanded c) := by
  have hland : (E.Super_ProcessLanded c).IsCustomMovementMode
      ECustomMovementMode.CMOVE_WallRunning.toUInt8 = true →
      (ProcessLanded E c).MovementMode = EMovementMode.MOVE_Falling := by
    intro h
    have hmode : (E.Super_ProcessLanded c).MovementMode = EMovementMode.MOVE_Custom := by
      simp only [IsCustomMovementMode, Bool.and_eq_true, beq_iff_eq] at h
      exact h.1
    have hne : (E.Super_ProcessLanded c).MovementMode ≠ EMovementMode.MOVE_Falling := by
      rw [hmode]; decide
    unfold ProcessLanded
    simp only [h, if_true]
    exact (SetMovementMode_other E hM _ _ 0 (by decide) hne).1
  have hkeep : (E.Super_ProcessLanded c).IsCustomMovementMode
      ECustomMovementMode.CMOVE_WallRunning.toUInt8 = false →
      ProcessLanded E c = E.Super_ProcessLanded c := by
    intro h
    unfold ProcessLanded
    simp [h]
  refine ⟨?_, hland, hkeep⟩
  cases h : (E.Super_ProcessLanded c).IsCustomMovementMode
      ECustomMovementMode.CMOVE_WallRunning.toUInt8 with
  | false => rw [hkeep h]; exact h
  | true => simp [IsCustomMovementMode, hland h]

/-- C9 at a concrete input: a base landing handler that does nothing leaves the sample wall
run as it is, keys still held; `ProcessLanded` ends it in Falling. -/
theorem process_landed_interrupt_witness :
    (sampleEngine none).SuperKeepsMode ∧
    ((sampleEngine none).Super_ProcessLanded sampleWallRunning).IsCustomMovementMode
      ECustomMovementMode.CMOVE_WallRunning.toUInt8 = true ∧
    (ProcessLanded (sampleEngine none) sampleWallRunning).MovementMode
      = EMovementMode.MOVE_Falling ∧
    (ProcessLanded (sampleEngine none) sampleWallRunning).IsCustomMovementMode
      ECustomMovementMode.CMOVE_WallRunning.toUInt8 = false :=
  have hM : (sampleEngine none).SuperKeepsMode := fun _ _ _ => ⟨rfl, rfl⟩
  have hw : ((sampleEngine none).Super_ProcessLanded sampleWallRunning).IsCustomMovementMode
      ECustomMovementMode.CMOVE_WallRunning.toUInt8 = true := by decide
  have h := process_landed_interrupt (sampleEngine none) hM sampleWallRunning
  ⟨hM, hw, h.2.1 hw, h.1⟩

/-- C10. Capture/replay round trip: after `SetMoveFor` captured from a component `c`,
`PrepMoveFor` applied to any component `c2` sets its `WantsToSprint` and `WallRunKeysDown`
to the values `c` had at capture and leaves `WallRunDirection`, `WallRunSide` and
`SprintKeyDown` as they were, whatever the base-class capture and replay steps do; the
movement mode and the custom mode id are unchanged as well when the base-class replay
step leaves them alone. -/
theorem capture_replay_round_trip
    (Super_SetMoveFor : UCharacterMovementComponent α → σ → σ)
    (Super_PrepMoveFor : σ → UCharacterMovementComponent α → UCharacterMovementComponent α)
    (m : FSavedMove_My σ) (c c2 : UMyCharacterMovementComponent α) :
    (FSavedMove_My.PrepMoveFor Super_PrepMoveFor
        (FSavedMove_My.SetMoveFor Super_SetMoveFor m c) c2).WantsToSprint = c.WantsToSprint ∧
    (FSavedMove_My.PrepMoveFor Super_PrepMoveFor
        (FSavedMove_My.SetMoveFor Super_SetMoveFor m c) c2).WallRunKeysDown = c.WallRunKeysDown ∧
    (FSavedMove_My.PrepMoveFor Super_PrepMoveFor
        (FSavedMove_My.SetMoveFor Super_SetMoveFor m c) c2).WallRunDirection
      = c2.WallRunDirection ∧
    (FSavedMove_My.PrepMoveFor Super_PrepMoveFor
        (FSavedMove_My.SetMoveFor Super_SetMoveFor m c) c2).WallRunSide = c2.WallRunSide ∧
    (FSavedMove_My.PrepMoveFor Super_PrepMoveFor
        (FSavedMove_My.SetMoveFor Super_SetMoveFor m c) c2).SprintKeyDown = c2.SprintKeyDown ∧
    ((∀ (b : σ) (u : UCharacterMovementComponent α),
        (Super_PrepMoveFor b u).MovementMode = u.MovementMode ∧
        (Super_PrepMoveFor b u).CustomMovementMode = u.CustomMovementMode) →
      (FSavedMove_My.PrepMoveFor Super_PrepMoveFor
          (FSavedMove_My.SetMoveFor Super_SetMoveFor m c) c2).MovementMode = c2.MovementMode ∧
      (FSavedMove_My.PrepMoveFor Super_PrepMoveFor
          (FSavedMove_My.SetMoveFor Super_SetMoveFor m c) c2).CustomMovementMode
        = c2.CustomMovementMode) := by
  refine ⟨rfl, rfl, rfl, rfl, rfl, ?_⟩
  intro h
  exact ⟨(h _ _).1, (h _ _).2⟩

/-- C6. Proximity prober result: `IsNextToWall` returns true exactly when a probe hits and
the side classified from that hit's impact normal equals the current `WallRunSide`, where
the hit is the one `probedNormal` describes (raised probe first, lowered probe when the
raised one misses, a single probe on the run line without tolerance); in particular a hit
that classifies as Right during a left-side run gives false. -/
theorem is_next_to_wall_result [LinearOrderedField α] (E : Engine α)
    (c : UMyCharacterMovementComponent α) (t : α) :
    ((IsNextToWall E c t).1 = true ↔
      ∃ n, probedNormal E c t = some n ∧ (c.FindWallRunDirectionAndSide n).2 = c.WallRunSide) ∧
    (probedNormal E c t = none → (IsNextToWall E c t).1 = false) ∧
    (∀ n, probedNormal E c t = some n → c.WallRunSide = EWallRunSide.kLeft →
      (c.FindWallRunDirectionAndSide n).2 = EWallRunSide.kRight →
      (IsNextToWall E c t).1 = false) := by
  have key : (IsNextToWall E c t).1 =
      match probedNormal E c t with
      | some n => decide ((c.FindWallRunDirectionAndSide n).2 = c.WallRunSide)
      | none => false := by
    unfold IsNextToWall probedNormal
    simp only [lineTrace, FVector.raised, sub_eq_add_neg]
    split_ifs
    · cases h1 : E.LineTraceSingleByChannel
          ⟨c.traceStart.X, c.traceStart.Y, c.traceStart.Z + t / 2⟩
          ⟨c.traceEnd.X, c.traceEnd.Y, c.traceEnd.Z + t / 2⟩ with
      | some n => simp only [sideCheck_fst]; rfl
      | none =>
        cases h2 : E.LineTraceSingleByChannel
            ⟨c.traceStart.X, c.traceStart.Y, c.traceStart.Z + -(t / 2)⟩
            ⟨c.traceEnd.X, c.traceEnd.Y, c.traceEnd.Z + -(t / 2)⟩ with
        | some n => simp only [sideCheck_fst]; rfl
        | none => rfl
    · cases h1 : E.LineTraceSingleByChannel c.traceStart c.traceEnd with
      | some n => simp only [sideCheck_fst]; rfl
      | none => rfl
  refine ⟨?_, ?_, ?_⟩
  · rw [key]
    cases h : probedNormal E c t with
    | none => simp
    | some n => simp
  · intro h
    rw [key, h]
  · intro n h hl hr
    rw [key, h]
    simp [hl, hr]

/-- C8. Surface classifier definition: for a surface normal `n` and the character's right
vector `r`, `FindWallRunDirectionAndSide` yields side Right exactly when
`n.X * r.X + n.Y * r.Y > 0` and Left otherwise (a zero dot product gives Left); the
direction is `n × (0,0,1) = (n.Y, -n.X, 0)` for Right and `n × (0,0,-1) = (-n.Y, n.X, 0)`
for Left; the result depends on no state other than the right vector (the function is a
pure function of the component, so it writes nothing but its two outputs). -/
theorem find_wall_run_direction_and_side_def [LinearOrderedField α]
    (c : UMyCharacterMovementComponent α) (n : FVector α) :
    ((c.FindWallRunDirectionAndSide n).2 = EWallRunSide.kRight ↔
      n.X * c.PawnOwner.ActorRightVector.X + n.Y * c.PawnOwner.ActorRightVector.Y > 0) ∧
    ((c.FindWallRunDirectionAndSide n).2 = EWallRunSide.kLeft ↔
      ¬ (n.X * c.PawnOwner.ActorRightVector.X + n.Y * c.PawnOwner.ActorRightVector.Y > 0)) ∧
    ((c.FindWallRunDirectionAndSide n).2 = EWallRunSide.kRight →
      (c.FindWallRunDirectionAndSide n).1 = FVector.CrossProduct n ⟨0, 0, 1⟩ ∧
      (c.FindWallRunDirectionAndSide n).1 = ⟨n.Y, -n.X, 0⟩) ∧
    ((c.FindWallRunDirectionAndSide n).2 = EWallRunSide.kLeft →
      (c.FindWallRunDirectionAndSide n).1 = FVector.CrossProduct n ⟨0, 0, -1⟩ ∧
      (c.FindWallRunDirectionAndSide n).1 = ⟨-n.Y, n.X, 0⟩) ∧
    (∀ c2 : UMyCharacterMovementComponent α,
      c2.PawnOwner.ActorRightVector = c.PawnOwner.ActorRightVector →
      c2.FindWallRunDirectionAndSide n = c.FindWallRunDirectionAndSide n) := by
  have hR : FVector.CrossProduct n (⟨0, 0, 1⟩ : FVector α) = ⟨n.Y, -n.X, 0⟩ := by
    simp [FVector.CrossProduct]
  have hL : FVector.CrossProduct n (⟨0, 0, -1⟩ : FVector α) = ⟨-n.Y, n.X, 0⟩ := by
    simp [FVector.CrossProduct]
  refine ⟨?_, ?_, ?_, ?_, ?_⟩
  · unfold FindWallRunDirectionAndSide FVector.DotProduct2D
    split_ifs with h <;> simp [h]
  · unfold FindWallRunDirectionAndSide FVector.DotProduct2D
    split_ifs with h <;> simp [h]
  · unfold FindWallRunDirectionAndSide FVector.DotProduct2D
    split_ifs with h
    · intro _; exact ⟨rfl, hR⟩
    · intro h2; exact absurd h2 (by decide)
  · unfold FindWallRunDirectionAndSide FVector.DotProduct2D
    split_ifs with h
    · intro h2; exact absurd h2 (by decide)
    · intro _; exact ⟨rfl, hL⟩
  · intro c2 h
    unfold FindWallRunDirectionAndSide
    rw [h]

/-- C7, the code at a failing input. With the real arccosine (radians) and the real
inverse square root as the engine's maths helpers, `CanSurfaceBeWallRan` accepts every
normal whose vertical component is not below -0.05 as soon as the walkable-floor angle is
at least 4: the radian angle never exceeds pi. At the default angle of 44.765 degrees it
accepts the unit normal (3/5, 0, 4/5), although that wall's angle from vertical, taken in
degrees like the threshold, is above 45 and so not below the threshold. -/
theorem can_surface_be_wall_ran_unit_mismatch :
    (∀ (c : UMyCharacterMovementComponent ℝ) (n : FVector ℝ),
      4 ≤ c.WalkableFloorAngle → ¬ n.Z < -(5 / 100) →
      CanSurfaceBeWallRan (plainEngine Real.arccos (fun x => (Real.sqrt x)⁻¹)) c n = true) ∧
    CanSurfaceBeWallRan (plainEngine Real.arccos (fun x => (Real.sqrt x)⁻¹))
      (defaultsComponent : UMyCharacterMovementComponent ℝ) ⟨3 / 5, 0, 4 / 5⟩ = true ∧
    FVector.Normalize (fun x => (Real.sqrt x)⁻¹) (⟨3 / 5, 0, 0⟩ : FVector ℝ) = ⟨1, 0, 0⟩ ∧
    ¬ (180 / Real.pi *
        Real.arccos (FVector.DotProduct
          (FVector.Normalize (fun x => (Real.sqrt x)⁻¹) (⟨3 / 5, 0, 0⟩ : FVector ℝ))
          ⟨3 / 5, 0, 4 / 5⟩)
      < (defaultsComponent : UMyCharacterMovementComponent ℝ).GetWalkableFloorAngle) := by
  have hall : ∀ (c : UMyCharacterMovementComponent ℝ) (n : FVector ℝ),
      4 ≤ c.WalkableFloorAngle → ¬ n.Z < -(5 / 100) →
      CanSurfaceBeWallRan (plainEngine Real.arccos (fun x => (Real.sqrt x)⁻¹)) c n = true := by
    intro c n hc hn
    unfold CanSurfaceBeWallRan
    rw [if_neg hn]
    simp only [plainEngine, GetWalkableFloorAngle, decide_eq_true_eq]
    exact lt_of_le_of_lt (Real.arccos_le_pi _)
      (lt_of_lt_of_le (by linarith [Real.pi_lt_d2]) hc)
  have hsqrt : Real.sqrt (9 / 25) = 3 / 5 := by
    rw [show (9 / 25 : ℝ) = (3 / 5) ^ 2 by norm_num]
    exact Real.sqrt_sq (by norm_num)
  have hnorm : FVector.Normalize (fun x => (Real.sqrt x)⁻¹) (⟨3 / 5, 0, 0⟩ : FVector ℝ)
      = ⟨1, 0, 0⟩ := by
    unfold FVector.Normalize
    have h1 : (3 / 5 : ℝ) * (3 / 5) + 0 * 0 + 0 * 0 = 9 / 25 := by norm_num
    simp only [h1]
    rw [if_pos (by norm_num [FVector.SMALL_NUMBER])]
    simp only [FVector.scale, hsqrt]
    norm_num
  refine ⟨hall, hall _ _ (by norm_num [defaultsComponent]) (by norm_num), hnorm, ?_⟩
  rw [hnorm]
  have hdot : FVector.DotProduct (⟨1, 0, 0⟩ : FVector ℝ) ⟨3 / 5, 0, 4 / 5⟩ = 3 / 5 := by
    norm_num [FVector.DotProduct]
  rw [hdot]
  have hs2 : ¬ (Real.sqrt 2 / 2 ≤ 3 / 5) := by
    intro h
    have h2 : Real.sqrt 2 ≤ 6 / 5 := by linarith
    have h3 : (2 : ℝ) ≤ (6 / 5) ^ 2 := by
      calc (2 : ℝ) = Real.sqrt 2 ^ 2 := (Real.sq_sqrt (by norm_num)).symm
        _ ≤ (6 / 5) ^ 2 := by
          exact pow_le_pow_left₀ (Real.sqrt_nonneg 2) h2 2
    norm_num at h3
  have hacos : Real.pi / 4 < Real.arccos (3 / 5) := by
    by_contra h
    exact hs2 (Real.arccos_le_pi_div_four.mp (not_lt.mp h))
  have hpi : 0 < Real.pi := Real.pi_pos
  have h45 : (45 : ℝ) < 180 / Real.pi * Real.arccos (3 / 5) := by
    have : 180 / Real.pi * (Real.pi / 4) = 45 := by field_simp; norm_num
    rw [← this]
    exact mul_lt_mul_of_pos_left hacos (by positivity)
  simp only [GetWalkableFloorAngle, defaultsComponent, not_lt]
  linarith

/-- C11. Max-speed table: `GetMaxSpeed` is the crouch speed when walking or nav-walking
and crouching (sprint wanted or not), `SprintSpeed` when walking or nav-walking, not
crouching, with sprint wanted, `RunSpeed` when walking or nav-walking otherwise, `RunSpeed`
when falling, the swim speed when swimming, the fly speed when flying, the custom max
speed in the custom mode (whatever the custom mode id), and 0 when the mode is None. -/
theorem get_max_speed_table [LinearOrderedField α] (c : UMyCharacterMovementComponent α) :
    ((c.MovementMode = EMovementMode.MOVE_Walking ∨
        c.MovementMode = EMovementMode.MOVE_NavWalking) →
      (c.IsCrouching = true → c.GetMaxSpeed = c.MaxWalkSpeedCrouched) ∧
      (c.IsCrouching = false → c.WantsToSprint = true → c.GetMaxSpeed = c.SprintSpeed) ∧
      (c.IsCrouching = false → c.WantsToSprint = false → c.GetMaxSpeed = c.RunSpeed)) ∧
    (c.MovementMode = EMovementMode.MOVE_Falling → c.GetMaxSpeed = c.RunSpeed) ∧
    (c.MovementMode = EMovementMode.MOVE_Swimming → c.GetMaxSpeed = c.MaxSwimSpeed) ∧
    (c.MovementMode = EMovementMode.MOVE_Flying → c.GetMaxSpeed = c.MaxFlySpeed) ∧
    (c.MovementMode = EMovementMode.MOVE_Custom → c.GetMaxSpeed = c.MaxCustomMovementSpeed) ∧
    (c.MovementMode = EMovementMode.MOVE_None → c.GetMaxSpeed = 0) := by
  refine ⟨?_, ?_, ?_, ?_, ?_, ?_⟩
  · intro h
    rcases h with h | h
    · refine ⟨?_, ?_, ?_⟩
      · intro hc; simp [GetMaxSpeed, h, hc]
      · intro hc hs; simp [GetMaxSpeed, h, hc, hs]
      · intro hc hs; simp [GetMaxSpeed, h, hc, hs]
    · refine ⟨?_, ?_, ?_⟩
      · intro hc; simp [GetMaxSpeed, h, hc]
      · intro hc hs; simp [GetMaxSpeed, h, hc, hs]
      · intro hc hs; simp [GetMaxSpeed, h, hc, hs]
  · intro h; simp [GetMaxSpeed, h]
  · intro h; simp [GetMaxSpeed, h]
  · intro h; simp [GetMaxSpeed, h]
  · intro h; simp [GetMaxSpeed, h]
  · intro h; simp [GetMaxSpeed, h]

/-- C12 as stated fails: the sample character walks, crouches and does not want to sprint,
and `GetMaxAcceleration` returns `RunAcceleration` (2000), not the base-class value (2048). -/
theorem get_max_acceleration_crouched_counterexample :
    sampleCrouchedWalking.MovementMode = EMovementMode.MOVE_Walking ∧
    sampleCrouchedWalking.IsCrouching = true ∧
    sampleCrouchedWalking.WantsToSprint = false ∧
    GetMaxAcceleration sampleSuperGetMaxAcceleration sampleCrouchedWalking = 2000 ∧
    sampleSuperGetMaxAcceleration sampleCrouchedWalking.toUCharacterMovementComponent = 2048 ∧
    GetMaxAcceleration sampleSuperGetMaxAcceleration sampleCrouchedWalking ≠
      sampleSuperGetMaxAcceleration sampleCrouchedWalking.toUCharacterMovementComponent := by
  refine ⟨rfl, rfl, rfl, ?_, ?_, ?_⟩
  · simp [GetMaxAcceleration, IsMovingOnGround, sampleCrouchedWalking, sampleComponent]
  · simp [sampleSuperGetMaxAcceleration, sampleCrouchedWalking, sampleComponent]
  · norm_num [GetMaxAcceleration, IsMovingOnGround, sampleSuperGetMaxAcceleration,
      sampleCrouchedWalking, sampleComponent]

/-- C12, amended. Max-acceleration table: `GetMaxAcceleration` is `SprintAcceleration`
whenever the character is grounded (walking or nav-walking) and sprint is wanted,
`RunAcceleration` when it is grounded and sprint is not wanted, crouching or not, and the
base-class value in Falling, Swimming, Flying, Custom and None. -/
theorem get_max_acceleration_table [LinearOrderedField α]
    (Super_GetMaxAcceleration : UCharacterMovementComponent α → α)
    (c : UMyCharacterMovementComponent α) :
    ((c.MovementMode = EMovementMode.MOVE_Walking ∨
        c.MovementMode = EMovementMode.MOVE_NavWalking) →
      (c.WantsToSprint = true →
        GetMaxAcceleration Super_GetMaxAcceleration c = c.SprintAcceleration) ∧
      (c.WantsToSprint = false →
        GetMaxAcceleration Super_GetMaxAcceleration c = c.RunAcceleration)) ∧
    ((c.MovementMode = EMovementMode.MOVE_Falling ∨
        c.MovementMode = EMovementMode.MOVE_Swimming ∨
        c.MovementMode = EMovementMode.MOVE_Flying ∨
        c.MovementMode = EMovementMode.MOVE_Custom ∨
        c.MovementMode = EMovementMode.MOVE_None) →
      GetMaxAcceleration Super_GetMaxAcceleration c =
        Super_GetMaxAcceleration c.toUCharacterMovementComponent) := by
  constructor
  · intro h
    rcases h with h | h
    · exact ⟨fun hs => by simp [GetMaxAcceleration, IsMovingOnGround, h, hs],
        fun hs => by simp [GetMaxAcceleration, IsMovingOnGround, h, hs]⟩
    · exact ⟨fun hs => by simp [GetMaxAcceleration, IsMovingOnGround, h, hs],
        fun hs => by simp [GetMaxAcceleration, IsMovingOnGround, h, hs]⟩
  · intro h
    rcases h with h | h | h | h | h <;> simp [GetMaxAcceleration, IsMovingOnGround, h]

/-- C15. Wire layout: `GetCompressedFlags` returns the base byte OR-ed with 0x10 when
`SavedWantsToSprint` is set and with 0x20 when `SavedWallRunKeysDown` is set; every bit
other than bit 4 and bit 5 is the base byte's, so the low four bits and the two reserved
custom bits 0x40 and 0x80 are unchanged (zero in the result when zero in the base byte),
and a byte stays a byte. -/
theorem get_compressed_flags_layout (Super_GetCompressedFlags : σ → Nat)
    (m : FSavedMove_My σ) :
    FSavedMove_My.GetCompressedFlags Super_GetCompressedFlags m =
      (Super_GetCompressedFlags m.Super ||| (if m.SavedWantsToSprint then 0x10 else 0)) |||
        (if m.SavedWallRunKeysDown then 0x20 else 0) ∧
    (∀ i, i ≠ 4 → i ≠ 5 →
      (FSavedMove_My.GetCompressedFlags Super_GetCompressedFlags m).testBit i =
        (Super_GetCompressedFlags m.Super).testBit i) ∧
    FSavedMove_My.GetCompressedFlags Super_GetCompressedFlags m &&& 0x0F =
      Super_GetCompressedFlags m.Super &&& 0x0F ∧
    FSavedMove_My.GetCompressedFlags Super_GetCompressedFlags m &&& FLAG_Custom_2 =
      Super_GetCompressedFlags m.Super &&& FLAG_Custom_2 ∧
    FSavedMove_My.GetCompressedFlags Super_GetCompressedFlags m &&& FLAG_Custom_3 =
      Super_GetCompressedFlags m.Super &&& FLAG_Custom_3 ∧
    (Super_GetCompressedFlags m.Super &&& FLAG_Custom_2 = 0 →
      FSavedMove_My.GetCompressedFlags Super_GetCompressedFlags m &&& FLAG_Custom_2 = 0) ∧
    (Super_GetCompressedFlags m.Super &&& FLAG_Custom_3 = 0 →
      FSavedMove_My.GetCompressedFlags Super_GetCompressedFlags m &&& FLAG_Custom_3 = 0) ∧
    (Super_GetCompressedFlags m.Super < 256 →
      FSavedMove_My.GetCompressedFlags Super_GetCompressedFlags m < 256) := by
  have hbits : ∀ i, i ≠ 4 → i ≠ 5 →
      (FSavedMove_My.GetCompressedFlags Super_GetCompressedFlags m).testBit i =
        (Super_GetCompressedFlags m.Super).testBit i := by
    intro i h4 h5
    rw [GetCompressedFlags_testBit]
    simp [h4, h5]
  have hmask : ∀ k : Nat, k.testBit 4 = false → k.testBit 5 = false →
      FSavedMove_My.GetCompressedFlags Super_GetCompressedFlags m &&& k =
        Super_GetCompressedFlags m.Super &&& k := by
    intro k k4 k5
    apply Nat.eq_of_testBit_eq
    intro i
    simp only [Nat.testBit_and]
    by_cases h4 : i = 4
    · subst h4; simp [k4]
    by_cases h5 : i = 5
    · subst h5; simp [k5]
    rw [hbits i h4 h5]
  have eq : FSavedMove_My.GetCompressedFlags Super_GetCompressedFlags m =
      (Super_GetCompressedFlags m.Super ||| (if m.SavedWantsToSprint then 0x10 else 0)) |||
        (if m.SavedWallRunKeysDown then 0x20 else 0) := by
    unfold FSavedMove_My.GetCompressedFlags
    cases m.SavedWantsToSprint <;> cases m.SavedWallRunKeysDown <;>
      simp [FLAG_Custom_0, FLAG_Custom_1]
  have h2 := hmask FLAG_Custom_2 (by decide) (by decide)
  have h3 := hmask FLAG_Custom_3 (by decide) (by decide)
  refine ⟨eq, hbits, hmask 0x0F (by decide) (by decide), h2, h3, ?_, ?_, ?_⟩
  · intro h; rw [h2, h]
  · intro h; rw [h3, h]
  · intro h
    rw [eq]
    have h8 : (256 : Nat) = 2 ^ 8 := by norm_num
    rw [h8] at h ⊢
    apply Nat.or_lt_two_pow
    · apply Nat.or_lt_two_pow h
      split_ifs <;> norm_num
    · split_ifs <;> norm_num

/-- The key loop with a player controller present: true exactly when some mapped key is
down. -/
theorem sprintKeyLoop_some {κ : Type} (IsInputKeyDown : κ → Bool) (keys : List κ) :
    sprintKeyLoop (some IsInputKeyDown) keys = some (keys.any IsInputKeyDown) := by
  induction keys with
  | nil => rfl
  | cons key rest ih =>
    unfold sprintKeyLoop
    cases h : IsInputKeyDown key
    · simp [h, ih]
    · simp [h]

/-- C13 as stated fails: with "Sprint" bound to keys 1 and 2 and only key 1 held, the
locally controlled sample character stores `WallRunKeysDown = true` although not all bound
keys are down. -/
theorem wall_run_keys_all_counterexample :
    sampleComponent.PawnOwner.bLocallyControlled = true ∧
    ¬ (∀ key ∈ sampleMappings "Sprint", sampleKeyState key = true) ∧
    AreRequiredWallRunKeysDown sampleMappings (some sampleKeyState) sampleComponent
      = some true ∧
    (TickComponent (sampleEngine none) sampleMappings (some sampleKeyState) (fun x => x)
      sampleComponent).map (fun r => r.WallRunKeysDown) = some true := by
  refine ⟨rfl, by decide, by decide, ?_⟩
  simp only [TickComponent, localOnlyChecks, AreRequiredWallRunKeysDown, sprintKeyLoop_some]
  decide

/-- C13, amended. Wall-run key sampling: for a locally controlled character with a player
controller, `AreRequiredWallRunKeysDown` is true exactly when at least one key bound to
the action "Sprint" is down, and that is the `WallRunKeysDown` value `TickComponent`
stores before it hands over to the base-class tick. -/
theorem wall_run_keys_any [LinearOrderedField α] {κ : Type} (E : Engine α)
    (GetActionMappingByName : String → List κ) (IsInputKeyDown : κ → Bool)
    (Super_TickComponent : UMyCharacterMovementComponent α → UMyCharacterMovementComponent α)
    (c : UMyCharacterMovementComponent α) (hl : c.PawnOwner.bLocallyControlled = true) :
    (AreRequiredWallRunKeysDown GetActionMappingByName (some IsInputKeyDown) c = some true ↔
      ∃ key ∈ GetActionMappingByName "Sprint", IsInputKeyDown key = true) ∧
    (AreRequiredWallRunKeysDown GetActionMappingByName (some IsInputKeyDown) c = some false ↔
      ∀ key ∈ GetActionMappingByName "Sprint", IsInputKeyDown key = false) ∧
    ∃ c1, localOnlyChecks E GetActionMappingByName (some IsInputKeyDown) c = some c1 ∧
      (c1.WallRunKeysDown = true ↔
        ∃ key ∈ GetActionMappingByName "Sprint", IsInputKeyDown key = true) ∧
      TickComponent E GetActionMappingByName (some IsInputKeyDown) Super_TickComponent c
        = some (Super_TickComponent c1) := by
  have hq : ∀ c2 : UMyCharacterMovementComponent α, c2.PawnOwner.bLocallyControlled = true →
      AreRequiredWallRunKeysDown GetActionMappingByName (some IsInputKeyDown) c2 =
        some ((GetActionMappingByName "Sprint").any IsInputKeyDown) := by
    intro c2 h2
    unfold AreRequiredWallRunKeysDown
    simp [h2, sprintKeyLoop_some]
  refine ⟨?_, ?_, ?_⟩
  · rw [hq c hl]
    simp
  · rw [hq c hl]
    simp
  · have h1 := hq { c with WantsToSprint := sampledWantsToSprint E c } hl
    refine ⟨{ c with
        WantsToSprint := sampledWantsToSprint E c
        WallRunKeysDown := (GetActionMappingByName "Sprint").any IsInputKeyDown }, ?_, ?_, ?_⟩
    · unfold localOnlyChecks
      simp only [hl, if_true]
      rw [h1]
    · simp
    · unfold TickComponent localOnlyChecks
      simp only [hl, if_true]
      rw [h1]

/-- C13 amended, at a concrete input: the sample character with key 1 of the two "Sprint"
keys held stores `WallRunKeysDown = true`. -/
theorem wall_run_keys_any_witness :
    sampleComponent.PawnOwner.bLocallyControlled = true ∧
    (∃ key ∈ sampleMappings "Sprint", sampleKeyState key = true) ∧
    AreRequiredWallRunKeysDown sampleMappings (some sampleKeyState) sampleComponent
      = some true :=
  have h := wall_run_keys_any (sampleEngine none) sampleMappings sampleKeyState (fun x => x)
    sampleComponent rfl
  have hk : ∃ key ∈ sampleMappings "Sprint", sampleKeyState key = true :=
    ⟨1, by decide, by decide⟩
  ⟨rfl, hk, h.1.mpr hk⟩

/-- C16. BeginWallRun request: `BeginWallRun` returns true exactly when `WallRunKeysDown`
is set; when it returns false the component is unchanged (so are the movement mode, the
custom mode id, the velocity and the plane constraint); when it returns true the movement
mode is Custom with custom mode id WallRunning, the base-class mode-change handler leaving
the mode pair alone. -/
theorem begin_wall_run_request [LinearOrderedField α] (E : Engine α)
    (c : UMyCharacterMovementComponent α) :
    ((BeginWallRun E c).1 = true ↔ c.WallRunKeysDown = true) ∧
    ((BeginWallRun E c).1 = false →
      (BeginWallRun E c).2 = c ∧
      (BeginWallRun E c).2.MovementMode = c.MovementMode ∧
      (BeginWallRun E c).2.CustomMovementMode = c.CustomMovementMode ∧
      (BeginWallRun E c).2.Velocity = c.Velocity ∧
      (BeginWallRun E c).2.bConstrainToPlane = c.bConstrainToPlane ∧
      (BeginWallRun E c).2.PlaneConstraintNormal = c.PlaneConstraintNormal) ∧
    (E.SuperKeepsMode → (BeginWallRun E c).1 = true →
      (BeginWallRun E c).2.MovementMode = EMovementMode.MOVE_Custom ∧
      (BeginWallRun E c).2.CustomMovementMode =
        ECustomMovementMode.CMOVE_WallRunning.toUInt8) := by
  cases hk : c.WallRunKeysDown with
  | false =>
    have h : BeginWallRun E c = (false, c) := by
      unfold BeginWallRun
      simp [hk]
    rw [h]
    simp
  | true =>
    have h : BeginWallRun E c = (true, SetMovementMode E c EMovementMode.MOVE_Custom
        ECustomMovementMode.CMOVE_WallRunning.toUInt8) := by
      unfold BeginWallRun
      simp [hk]
    rw [h]
    refine ⟨by simp, by simp, ?_⟩
    intro hE _
    exact SetMovementMode_custom E hE c _

/-- C17, the code at the failing input. `AreRequiredWallRunKeysDown` returns false for a
pawn that is not locally controlled, and for a locally controlled pawn with no player
controller when no key is bound to "Sprint"; with no player controller and at least one
key bound it faults (the null controller is dereferenced), as for the locally controlled
sample character with "Sprint" bound to keys 1 and 2. -/
theorem are_required_wall_run_keys_down_null_controller [LinearOrderedField α] {κ : Type}
    (GetActionMappingByName : String → List κ) (PlayerController : Option (κ → Bool))
    (c : UMyCharacterMovementComponent α) :
    (c.PawnOwner.bLocallyControlled = false →
      AreRequiredWallRunKeysDown GetActionMappingByName PlayerController c = some false) ∧
    (c.PawnOwner.bLocallyControlled = true → GetActionMappingByName "Sprint" = [] →
      AreRequiredWallRunKeysDown GetActionMappingByName none c = some false) ∧
    (c.PawnOwner.bLocallyControlled = true → GetActionMappingByName "Sprint" ≠ [] →
      AreRequiredWallRunKeysDown GetActionMappingByName none c = none) ∧
    sampleComponent.PawnOwner.bLocallyControlled = true ∧
    AreRequiredWallRunKeysDown sampleMappings none sampleComponent = none := by
  refine ⟨?_, ?_, ?_, rfl, by decide⟩
  · intro h
    simp [AreRequiredWallRunKeysDown, h]
  · intro h he
    simp [AreRequiredWallRunKeysDown, h, he, sprintKeyLoop]
  · intro h hne
    unfold AreRequiredWallRunKeysDown
    simp only [h]
    cases hm : GetActionMappingByName "Sprint" with
    | nil => exact absurd hm hne
    | cons key rest => simp [sprintKeyLoop]

/-- The invariant only reads base-class fields. -/
theorem planeInvariant_congr (c c2 : UMyCharacterMovementComponent α)
    (h : c.toUCharacterMovementComponent = c2.toUCharacterMovementComponent) :
    planeInvariant c → planeInvariant c2 := by
  unfold planeInvariant
  have h1 : c.bConstrainToPlane = c2.bConstrainToPlane := by rw [h]
  have h2 : c.MovementMode = c2.MovementMode := by rw [h]
  have h3 : c.CustomMovementMode = c2.CustomMovementMode := by rw [h]
  rw [h1, h2, h3]
  exact id

/-- A mode request keeps the plane-constraint invariant. -/
theorem SetMovementMode_invariant [LinearOrderedField α] (E : Engine α)
    (hM : E.SuperKeepsMode) (hP : E.SuperKeepsPlaneConstraint)
    (c : UMyCharacterMovementComponent α) (m : EMovementMode) (k : Nat)
    (hc : planeInvariant c) : planeInvariant (SetMovementMode E c m k) := by
  unfold SetMovementMode
  simp only []
  split_ifs with hcust hsame hsame
  · exact hc
  · unfold planeInvariant
    rw [(OnMovementModeChanged_mode E hM _ _ _).1, (OnMovementModeChanged_mode E hM _ _ _).2]
    unfold OnMovementModeChanged
    simp only [(hP _ _ _).1]
    subst hcust
    by_cases hk : k = ECustomMovementMode.CMOVE_WallRunning.toUInt8
    · subst hk
      have hprev : ¬ (c.MovementMode = EMovementMode.MOVE_Custom ∧
          c.CustomMovementMode = ECustomMovementMode.CMOVE_WallRunning.toUInt8) := by
        intro hp
        exact hsame ⟨hp.1, Or.inr hp.2.symm⟩
      by_cases hpm : c.MovementMode = EMovementMode.MOVE_Custom
      · have hpc : ¬ c.CustomMovementMode = ECustomMovementMode.CMOVE_WallRunning.toUInt8 :=
          fun h => hprev ⟨hpm, h⟩
        simp [hpm, hpc, SetPlaneConstraintNormal, StopMovementImmediately]
      · simp [hpm, SetPlaneConstraintNormal, StopMovementImmediately]
    · have hfalse : c.bConstrainToPlane = true →
          (c.MovementMode = EMovementMode.MOVE_Custom ∧
            c.CustomMovementMode = ECustomMovementMode.CMOVE_WallRunning.toUInt8) := hc.mp
      by_cases hpm : c.MovementMode = EMovementMode.MOVE_Custom
      · by_cases hpc : c.CustomMovementMode = ECustomMovementMode.CMOVE_WallRunning.toUInt8
        · simp [hpm, hpc, hk]
        · have hb : c.bConstrainToPlane = false := by
            cases hcb : c.bConstrainToPlane with
            | false => rfl
            | true => exact absurd (hfalse hcb).2 hpc
          simp [hpm, hpc, hk, hb]
      · have hb : c.bConstrainToPlane = false := by
          cases hcb : c.bConstrainToPlane with
          | false => rfl
          | true => exact absurd (hfalse hcb).1 hpm
        simp [hpm, hk, hb]
  · exact hc
  · unfold planeInvariant
    rw [(OnMovementModeChanged_mode E hM _ _ _).1, (OnMovementModeChanged_mode E hM _ _ _).2]
    unfold OnMovementModeChanged
    simp only [(hP _ _ _).1]
    have hfalse : c.bConstrainToPlane = true →
        (c.MovementMode = EMovementMode.MOVE_Custom ∧
          c.CustomMovementMode = ECustomMovementMode.CMOVE_WallRunning.toUInt8) := hc.mp
    by_cases hpm : c.MovementMode = EMovementMode.MOVE_Custom
    · by_cases hpc : c.CustomMovementMode = ECustomMovementMode.CMOVE_WallRunning.toUInt8
      · simp [hpm, hpc, hcust]
      · have hb : c.bConstrainToPlane = false := by
          cases hcb : c.bConstrainToPlane with
          | false => rfl
          | true => exact absurd (hfalse hcb).2 hpc
        simp [hpm, hpc, hcust, hb]
    · have hb : c.bConstrainToPlane = false := by
        cases hcb : c.bConstrainToPlane with
        | false => rfl
        | true => exact absurd (hfalse hcb).1 hpm
      simp [hpm, hcust, hb]

/-- The prober keeps the plane-constraint invariant: it leaves the base-class part alone. -/
theorem IsNextToWall_invariant [LinearOrderedField α] (E : Engine α)
    (c : UMyCharacterMovementComponent α) (t : α) (hc : planeInvariant c) :
    planeInvariant (IsNextToWall E c t).2 := by
  obtain ⟨d, calls, hp⟩ := IsNextToWall_frame E c t
  exact planeInvariant_congr c _ (by rw [hp]) hc

/-- Every step of the wall-run state machine keeps the plane-constraint invariant. -/
theorem WallRunStep_invariant [LinearOrderedField α] (E : Engine α)
    (hM : E.SuperKeepsMode) (hP : E.SuperKeepsPlaneConstraint)
    (hL : E.SuperLandedKeepsInvariant) (c : UMyCharacterMovementComponent α)
    (step : WallRunStep α) (hc : planeInvariant c) : planeInvariant (step.apply E c) := by
  cases step with
  | BeginWallRun =>
    show planeInvariant (BeginWallRun E c).2
    unfold BeginWallRun
    split_ifs
    · exact SetMovementMode_invariant E hM hP c _ _ hc
    · exact hc
  | EndWallRun => exact SetMovementMode_invariant E hM hP c _ _ hc
  | OnActorHit n =>
    show planeInvariant (OnActorHit E c n)
    have h1 : planeInvariant
        ({ c with
          WallRunDirection := (c.FindWallRunDirectionAndSide n).1
          WallRunSide := (c.FindWallRunDirectionAndSide n).2 } :
          UMyCharacterMovementComponent α) := planeInvariant_congr c _ rfl hc
    have h2 := IsNextToWall_invariant E _ 0 h1
    unfold OnActorHit
    simp only []
    split_ifs
    · exact hc
    · exact hc
    · exact hc
    · exact h2
    · unfold BeginWallRun
      split_ifs
      · exact SetMovementMode_invariant E hM hP _ _ _ h2
      · exact h2
  | PhysWallRunning dt =>
    show planeInvariant (PhysWallRunning E c dt)
    have h2 := IsNextToWall_invariant E c c.LineTraceVerticalTolerance hc
    unfold PhysWallRunning
    simp only []
    split_ifs
    · exact SetMovementMode_invariant E hM hP c _ _ hc
    · exact SetMovementMode_invariant E hM hP _ _ _ h2
    · exact h2
  | ProcessLanded =>
    show planeInvariant (ProcessLanded E c)
    unfold ProcessLanded
    simp only []
    split_ifs
    · exact SetMovementMode_invariant E hM hP _ _ _ (hL c hc)
    · exact hL c hc

/-- C18. Plane-constraint invariant: from a state that is not wall-running with
`bConstrainToPlane` false, after every finite sequence of `BeginWallRun`, `EndWallRun`,
`OnActorHit`, `PhysWallRunning` and `ProcessLanded` steps, `bConstrainToPlane` is true
exactly when the movement mode is Custom(WallRunning); the engine of each step has a
base-class mode-change handler that leaves the mode pair and the plane constraint alone
and a base-class landing handler that keeps the invariant. -/
theorem plane_constraint_invariant [LinearOrderedField α]
    (steps : List (Engine α × WallRunStep α))
    (hE : ∀ s ∈ steps, s.1.SuperKeepsMode ∧ s.1.SuperKeepsPlaneConstraint ∧
      s.1.SuperLandedKeepsInvariant)
    (c : UMyCharacterMovementComponent α)
    (hmode : c.IsCustomMovementMode ECustomMovementMode.CMOVE_WallRunning.toUInt8 = false)
    (hplane : c.bConstrainToPlane = false) :
    ((runSteps c steps).bConstrainToPlane = true ↔
      (runSteps c steps).IsCustomMovementMode
        ECustomMovementMode.CMOVE_WallRunning.toUInt8 = true) := by
  have hinv : ∀ (l : List (Engine α × WallRunStep α)) (c0 : UMyCharacterMovementComponent α),
      (∀ s ∈ l, s.1.SuperKeepsMode ∧ s.1.SuperKeepsPlaneConstraint ∧
        s.1.SuperLandedKeepsInvariant) →
      planeInvariant c0 → planeInvariant (runSteps c0 l) := by
    intro l
    induction l with
    | nil => intro c0 _ h0; exact h0
    | cons s rest ih =>
      intro c0 hs h0
      obtain ⟨hM, hP, hL⟩ := hs s (List.mem_cons_self _ _)
      exact ih _ (fun t ht => hs t (List.mem_cons_of_mem _ ht))
        (WallRunStep_invariant s.1 hM hP hL c0 s.2 h0)
  have h0 : planeInvariant c := by
    unfold planeInvariant
    simp only [IsCustomMovementMode, Bool.and_eq_false_iff, beq_eq_false_iff_ne, ne_eq] at hmode
    rw [hplane]
    constructor
    · intro h; exact Bool.noConfusion h
    · rintro ⟨h1, h2⟩
      rcases hmode with h | h
      · exact absurd h1 h
      · exact absurd h2 h
  have h := hinv steps c hE h0
  unfold planeInvariant at h
  rw [h]
  simp [IsCustomMovementMode]

/-- The handlers of the sample engine do nothing, so they keep every frame condition. -/
theorem sampleEngine_frames (w : Option (FVector ℚ)) :
    (sampleEngine w).SuperKeepsMode ∧ (sampleEngine w).SuperKeepsPlaneConstraint ∧
    (sampleEngine w).SuperLandedKeepsInvariant :=
  ⟨fun _ _ _ => ⟨rfl, rfl⟩, fun _ _ _ => ⟨rfl, rfl⟩, fun _ h => h⟩

/-- C18 at a concrete input: the sample run (hit the wall, run, lose the wall, ask again,
land) from the falling, unconstrained sample character. -/
theorem plane_constraint_invariant_witness :
    (∀ s ∈ sampleSteps, s.1.SuperKeepsMode ∧ s.1.SuperKeepsPlaneConstraint ∧
      s.1.SuperLandedKeepsInvariant) ∧
    sampleKeysDown.IsCustomMovementMode ECustomMovementMode.CMOVE_WallRunning.toUInt8 = false ∧
    sampleKeysDown.bConstrainToPlane = false ∧
    ((runSteps sampleKeysDown sampleSteps).bConstrainToPlane = true ↔
      (runSteps sampleKeysDown sampleSteps).IsCustomMovementMode
        ECustomMovementMode.CMOVE_WallRunning.toUInt8 = true) :=
  have hE : ∀ s ∈ sampleSteps, s.1.SuperKeepsMode ∧ s.1.SuperKeepsPlaneConstraint ∧
      s.1.SuperLandedKeepsInvariant := by
    intro s hs
    simp only [sampleSteps, List.mem_cons, List.mem_singleton, List.not_mem_nil, or_false] at hs
    rcases hs with rfl | rfl | rfl | rfl | rfl <;> exact sampleEngine_frames _
  ⟨hE, by decide, rfl, plane_constraint_invariant sampleSteps hE sampleKeysDown (by decide) rfl⟩

/-- C19. Forward-pointing direction: for a character whose right vector is its forward
vector `f` turned a quarter turn in the horizontal plane, `r = (-f.Y, f.X, 0)`, the
direction returned by `FindWallRunDirectionAndSide` for any surface normal `n` satisfies
`direction . f = |n . r|`, so it never points against the forward vector, whichever side
was chosen. -/
theorem direction_points_forward [LinearOrderedField α]
    (c : UMyCharacterMovementComponent α) (n : FVector α)
    (hr : c.PawnOwner.ActorRightVector =
      ⟨-c.PawnOwner.ActorForwardVector.Y, c.PawnOwner.ActorForwardVector.X, 0⟩) :
    FVector.DotProduct (c.FindWallRunDirectionAndSide n).1 c.PawnOwner.ActorForwardVector =
      |FVector.DotProduct n c.PawnOwner.ActorRightVector| ∧
    0 ≤ FVector.DotProduct (c.FindWallRunDirectionAndSide n).1 c.PawnOwner.ActorForwardVector := by
  have key : FVector.DotProduct (c.FindWallRunDirectionAndSide n).1
      c.PawnOwner.ActorForwardVector = |FVector.DotProduct n c.PawnOwner.ActorRightVector| := by
    unfold FindWallRunDirectionAndSide FVector.DotProduct2D
    rw [hr]
    simp only [FVector.DotProduct, FVector.CrossProduct]
    split_ifs with h
    · have hpos : 0 ≤ n.X * -c.PawnOwner.ActorForwardVector.Y +
          n.Y * c.PawnOwner.ActorForwardVector.X + n.Z * 0 := by linarith
      rw [abs_of_nonneg hpos]
      ring
    · have hneg : n.X * -c.PawnOwner.ActorForwardVector.Y +
          n.Y * c.PawnOwner.ActorForwardVector.X + n.Z * 0 ≤ 0 := by
        have := not_lt.mp h
        linarith
      rw [abs_of_nonpos hneg]
      ring
  exact ⟨key, by rw [key]; exact abs_nonneg _⟩

/-- C19 at a concrete input: the sample character faces +X with +Y to its right; for the
sample wall normal (0, -0.9, 0.1) the direction has dot product 0.9 with the forward
vector. -/
theorem direction_points_forward_witness :
    sampleComponent.PawnOwner.ActorRightVector =
      ⟨-sampleComponent.PawnOwner.ActorForwardVector.Y,
        sampleComponent.PawnOwner.ActorForwardVector.X, 0⟩ ∧
    FVector.DotProduct (sampleComponent.FindWallRunDirectionAndSide sampleWall).1
      sampleComponent.PawnOwner.ActorForwardVector = 9 / 10 ∧
    0 ≤ FVector.DotProduct (sampleComponent.FindWallRunDirectionAndSide sampleWall).1
      sampleComponent.PawnOwner.ActorForwardVector :=
  have hr : sampleComponent.PawnOwner.ActorRightVector =
      ⟨-sampleComponent.PawnOwner.ActorForwardVector.Y,
        sampleComponent.PawnOwner.ActorForwardVector.X, 0⟩ := by
    simp [sampleComponent, samplePawn]
  have h := direction_points_forward sampleComponent sampleWall hr
  ⟨hr, by
    rw [h.1]
    norm_num [FVector.DotProduct, sampleComponent, samplePawn, sampleWall, abs_of_nonpos], h.2⟩

/-- Normalising a vector along +X with the real inverse square root gives the unit vector. -/
theorem normalize_along_x (a : ℝ) (ha : 0 < a) (hs : (FVector.SMALL_NUMBER : ℝ) < a * a) :
    FVector.Normalize (fun x => (Real.sqrt x)⁻¹) (⟨a, 0, 0⟩ : FVector ℝ) = ⟨1, 0, 0⟩ := by
  unfold FVector.Normalize
  have h1 : a * a + 0 * 0 + 0 * 0 = a ^ 2 := by ring
  have h2 : a * a = a ^ 2 := by ring
  simp only [h1]
  rw [if_pos (by rw [← h2]; exact hs)]
  simp only [FVector.scale, Real.sqrt_sq ha.le]
  have : a * a⁻¹ = 1 := mul_inv_cancel₀ ha.ne'
  simp [this]

/-- With the real maths helpers, the wall angle of a normal with no Y part and a positive
X part is the arccosine of the X part. -/
theorem wallAngle_real (a z : ℝ) (ha : 0 < a) (hs : (FVector.SMALL_NUMBER : ℝ) < a * a) :
    wallAngle (plainEngine Real.arccos (fun x => (Real.sqrt x)⁻¹)) ⟨a, 0, z⟩ = Real.arccos a := by
  unfold wallAngle
  simp only [plainEngine]
  rw [normalize_along_x a ha hs]
  simp [FVector.DotProduct]

/-- A lower bound on an arccosine from an upper bound on its argument. -/
theorem lt_arccos_of_lt_cos {a y : ℝ} (ha0 : 0 ≤ a) (hapi : a ≤ Real.pi) (hy : -1 ≤ y)
    (h : y < Real.cos a) : a < Real.arccos y := by
  have h1 : Real.arccos (Real.cos a) < Real.arccos y :=
    Real.strictAntiOn_arccos ⟨hy, le_trans h.le (Real.cos_le_one a)⟩
      ⟨Real.neg_one_le_cos a, Real.cos_le_one a⟩ h
  rwa [Real.arccos_cos ha0 hapi] at h1

/-- An upper bound on an arccosine from a lower bound on its argument. -/
theorem arccos_lt_of_cos_lt {a y : ℝ} (ha0 : 0 ≤ a) (hapi : a ≤ Real.pi) (hy : y ≤ 1)
    (h : Real.cos a < y) : Real.arccos y < a := by
  have h1 : Real.arccos y < Real.arccos (Real.cos a) :=
    Real.strictAntiOn_arccos ⟨Real.neg_one_le_cos a, Real.cos_le_one a⟩
      ⟨le_trans (Real.neg_one_le_cos a) h.le, hy⟩ h
  rwa [Real.arccos_cos ha0 hapi] at h1

/-- The arccosine of 0.9 is above 0.4 radians. -/
theorem arccos_nine_tenths_gt : (2 / 5 : ℝ) < Real.arccos (9 / 10) := by
  apply lt_arccos_of_lt_cos (by norm_num) (by linarith [Real.pi_gt_three]) (by norm_num)
  have hb := @Real.cos_bound (2 / 5) (by rw [abs_le]; constructor <;> norm_num)
  rw [abs_le] at hb
  have h4 : |(2 / 5 : ℝ)| ^ 4 * (5 / 96) ≤ 1 / 100 := by
    rw [abs_of_nonneg (by norm_num)]; norm_num
  have hb1 := hb.1
  norm_num at hb1 h4 ⊢
  linarith

/-- The cosine of the angle the unit normal along (0.9, 0, 0.1) makes with the horizontal:
9 over the square root of 82, written with the square root of 0.82. -/
theorem unit_x_facts :
    0 < (9 / 10 : ℝ) * (Real.sqrt (82 / 100))⁻¹ ∧
    ((9 / 10 : ℝ) * (Real.sqrt (82 / 100))⁻¹) * ((9 / 10 : ℝ) * (Real.sqrt (82 / 100))⁻¹)
      = 81 / 82 ∧
    (Real.sqrt (1 + (1 / 9 : ℝ) ^ 2))⁻¹ = (9 / 10 : ℝ) * (Real.sqrt (82 / 100))⁻¹ := by
  have hs : 0 < Real.sqrt (82 / 100) := Real.sqrt_pos.mpr (by norm_num)
  have hss : Real.sqrt (82 / 100) * Real.sqrt (82 / 100) = 82 / 100 :=
    Real.mul_self_sqrt (by norm_num)
  refine ⟨by positivity, ?_, ?_⟩
  · have h1 : ((9 / 10 : ℝ) * (Real.sqrt (82 / 100))⁻¹) *
        ((9 / 10 : ℝ) * (Real.sqrt (82 / 100))⁻¹) =
        81 / 100 * (Real.sqrt (82 / 100) * Real.sqrt (82 / 100))⁻¹ := by
      rw [mul_inv]; ring
    rw [h1, hss]
    norm_num
  · have h1 : Real.sqrt (1 + (1 / 9 : ℝ) ^ 2) = 10 / 9 * Real.sqrt (82 / 100) := by
      rw [Real.sqrt_eq_iff_mul_self_eq (by norm_num) (by positivity)]
      have h2 : 10 / 9 * Real.sqrt (82 / 100) * (10 / 9 * Real.sqrt (82 / 100)) =
          100 / 81 * (Real.sqrt (82 / 100) * Real.sqrt (82 / 100)) := by ring
      rw [h2, hss]
      norm_num
    rw [h1, mul_inv]
    norm_num

/-- The angle arctan(0.1/0.9) lies between 0.11 and 0.1112 radians. -/
theorem arctan_ninth_bounds :
    Real.arctan ((1 / 10) / (9 / 10)) = Real.arccos ((9 / 10 : ℝ) * (Real.sqrt (82 / 100))⁻¹) ∧
    (11 / 100 : ℝ) < Real.arctan ((1 / 10) / (9 / 10)) ∧
    Real.arctan ((1 / 10) / (9 / 10)) < (1112 / 10000 : ℝ) := by
  obtain ⟨hpos, hsq, hinv⟩ := unit_x_facts
  have heq : Real.arctan ((1 / 10) / (9 / 10)) =
      Real.arccos ((9 / 10 : ℝ) * (Real.sqrt (82 / 100))⁻¹) := by
    rw [show ((1 / 10 : ℝ) / (9 / 10)) = 1 / 9 by norm_num,
      Real.arctan_eq_arccos (by norm_num), hinv]
  have hy1 : (9 / 10 : ℝ) * (Real.sqrt (82 / 100))⁻¹ ≤ 1 := by nlinarith [hsq, hpos]
  refine ⟨heq, ?_, ?_⟩
  · rw [heq]
    apply lt_arccos_of_lt_cos (by norm_num) (by linarith [Real.pi_gt_three]) (by linarith)
    have hb := @Real.cos_bound (11 / 100) (by rw [abs_le]; constructor <;> norm_num)
    rw [abs_le, abs_of_nonneg (by norm_num : (0 : ℝ) ≤ 11 / 100)] at hb
    have hb1 := hb.1
    norm_num at hb1
    nlinarith [hsq, hpos]
  · rw [heq]
    apply arccos_lt_of_cos_lt (by norm_num) (by linarith [Real.pi_gt_three]) hy1
    have hb := @Real.cos_bound (1112 / 10000) (by rw [abs_le]; constructor <;> norm_num)
    rw [abs_le, abs_of_nonneg (by norm_num : (0 : ℝ) ≤ 1112 / 10000)] at hb
    have hb2 := hb.2
    norm_num at hb2
    nlinarith [hsq, hpos]

/-- The angle test of `CanSurfaceBeWallRan` is the comparison of `wallAngle` with the
walkable-floor angle. -/
theorem CanSurfaceBeWallRan_eq_wallAngle [LinearOrderedField α] (E : Engine α)
    (c : UMyCharacterMovementComponent α) (n : FVector α) (hz : ¬ n.Z < -(5 / 100)) :
    CanSurfaceBeWallRan E c n = decide (wallAngle E n < c.GetWalkableFloorAngle) := by
  unfold CanSurfaceBeWallRan wallAngle
  rw [if_neg hz]

/-- C20 as stated fails: for the vector (0.9, 0, 0.1) itself, which is not of unit
length, the wall angle `CanSurfaceBeWallRan` computes with the real arccosine and inverse
square root is arccos 0.9, above 0.4 radians (above 22 degrees), not arctan(0.1/0.9),
which is below 0.1112 radians. -/
theorem wall_angle_scenario_counterexample :
    (∀ c : UMyCharacterMovementComponent ℝ,
      CanSurfaceBeWallRan (plainEngine Real.arccos (fun x => (Real.sqrt x)⁻¹)) c
          ⟨9 / 10, 0, 1 / 10⟩ =
        decide (wallAngle (plainEngine Real.arccos (fun x => (Real.sqrt x)⁻¹))
          ⟨9 / 10, 0, 1 / 10⟩ < c.GetWalkableFloorAngle)) ∧
    wallAngle (plainEngine Real.arccos (fun x => (Real.sqrt x)⁻¹)) ⟨9 / 10, 0, 1 / 10⟩
      = Real.arccos (9 / 10) ∧
    2 / 5 < wallAngle (plainEngine Real.arccos (fun x => (Real.sqrt x)⁻¹)) ⟨9 / 10, 0, 1 / 10⟩ ∧
    Real.arctan ((1 / 10) / (9 / 10)) < 1112 / 10000 ∧
    wallAngle (plainEngine Real.arccos (fun x => (Real.sqrt x)⁻¹)) ⟨9 / 10, 0, 1 / 10⟩
      ≠ Real.arctan ((1 / 10) / (9 / 10)) ∧
    22 < 180 / Real.pi *
      wallAngle (plainEngine Real.arccos (fun x => (Real.sqrt x)⁻¹)) ⟨9 / 10, 0, 1 / 10⟩ := by
  have hw := wallAngle_real (9 / 10) (1 / 10) (by norm_num)
    (by norm_num [FVector.SMALL_NUMBER])
  have hgt := arccos_nine_tenths_gt
  have hat := arctan_ninth_bounds.2.2
  have hpi : 0 < Real.pi := Real.pi_pos
  refine ⟨fun c => CanSurfaceBeWallRan_eq_wallAngle _ c _ (by norm_num), hw, ?_, hat, ?_, ?_⟩
  · rw [hw]; exact hgt
  · rw [hw]
    intro h
    rw [h] at hgt
    linarith
  · rw [hw]
    have h1 : 180 / Real.pi * Real.arccos (9 / 10) = 180 * Real.arccos (9 / 10) / Real.pi := by
      ring
    rw [h1, lt_div_iff₀ hpi]
    linarith [Real.pi_lt_d2]

/-- C20, amended. Trigger scenario angle: for the unit normal along (0.9, 0, 0.1), that
is the vector normalised as engine hit normals are, the wall angle `CanSurfaceBeWallRan`
computes with the real arccosine and inverse square root is arctan(0.1/0.9), the normal's
angle from vertical: between 0.11 and 0.1112 radians, between 6.3 and 6.4 degrees. -/
theorem wall_angle_unit_scenario :
    FVector.Normalize (fun x => (Real.sqrt x)⁻¹) (⟨9 / 10, 0, 1 / 10⟩ : FVector ℝ) =
      ⟨9 / 10 * (Real.sqrt (82 / 100))⁻¹, 0, 1 / 10 * (Real.sqrt (82 / 100))⁻¹⟩ ∧
    (∀ c : UMyCharacterMovementComponent ℝ,
      CanSurfaceBeWallRan (plainEngine Real.arccos (fun x => (Real.sqrt x)⁻¹)) c
          (FVector.Normalize (fun x => (Real.sqrt x)⁻¹) ⟨9 / 10, 0, 1 / 10⟩) =
        decide (wallAngle (plainEngine Real.arccos (fun x => (Real.sqrt x)⁻¹))
          (FVector.Normalize (fun x => (Real.sqrt x)⁻¹) ⟨9 / 10, 0, 1 / 10⟩)
            < c.GetWalkableFloorAngle)) ∧
    wallAngle (plainEngine Real.arccos (fun x => (Real.sqrt x)⁻¹))
        (FVector.Normalize (fun x => (Real.sqrt x)⁻¹) ⟨9 / 10, 0, 1 / 10⟩)
      = Real.arctan ((1 / 10) / (9 / 10)) ∧
    11 / 100 < wallAngle (plainEngine Real.arccos (fun x => (Real.sqrt x)⁻¹))
        (FVector.Normalize (fun x => (Real.sqrt x)⁻¹) ⟨9 / 10, 0, 1 / 10⟩) ∧
    wallAngle (plainEngine Real.arccos (fun x => (Real.sqrt x)⁻¹))
        (FVector.Normalize (fun x => (Real.sqrt x)⁻¹) ⟨9 / 10, 0, 1 / 10⟩) < 1112 / 10000 ∧
    63 / 10 < 180 / Real.pi *
      wallAngle (plainEngine Real.arccos (fun x => (Real.sqrt x)⁻¹))
        (FVector.Normalize (fun x => (Real.sqrt x)⁻¹) ⟨9 / 10, 0, 1 / 10⟩) ∧
    180 / Real.pi *
      wallAngle (plainEngine Real.arccos (fun x => (Real.sqrt x)⁻¹))
        (FVector.Normalize (fun x => (Real.sqrt x)⁻¹) ⟨9 / 10, 0, 1 / 10⟩) < 64 / 10 := by
  obtain ⟨hpos, hsq, hinv⟩ := unit_x_facts
  obtain ⟨heq, hlo, hhi⟩ := arctan_ninth_bounds
  have hpi : 0 < Real.pi := Real.pi_pos
  have hs : 0 < Real.sqrt (82 / 100) := Real.sqrt_pos.mpr (by norm_num)
  have hnorm : FVector.Normalize (fun x => (Real.sqrt x)⁻¹) (⟨9 / 10, 0, 1 / 10⟩ : FVector ℝ) =
      ⟨9 / 10 * (Real.sqrt (82 / 100))⁻¹, 0, 1 / 10 * (Real.sqrt (82 / 100))⁻¹⟩ := by
    unfold FVector.Normalize
    have h1 : (9 / 10 : ℝ) * (9 / 10) + 0 * 0 + 1 / 10 * (1 / 10) = 82 / 100 := by norm_num
    simp only [h1]
    rw [if_pos (by norm_num [FVector.SMALL_NUMBER])]
    simp [FVector.scale]
  have hw : wallAngle (plainEngine Real.arccos (fun x => (Real.sqrt x)⁻¹))
      (FVector.Normalize (fun x => (Real.sqrt x)⁻¹) ⟨9 / 10, 0, 1 / 10⟩)
      = Real.arctan ((1 / 10) / (9 / 10)) := by
    rw [hnorm, wallAngle_real _ _ hpos (by rw [hsq]; norm_num [FVector.SMALL_NUMBER]), heq]
  have hz : ¬ (FVector.Normalize (fun x => (Real.sqrt x)⁻¹)
      (⟨9 / 10, 0, 1 / 10⟩ : FVector ℝ)).Z < -(5 / 100) := by
    rw [hnorm]
    have : (0 : ℝ) ≤ 1 / 10 * (Real.sqrt (82 / 100))⁻¹ := by positivity
    simp only [not_lt]
    linarith
  refine ⟨hnorm, fun c => CanSurfaceBeWallRan_eq_wallAngle _ c _ hz, hw, ?_, ?_, ?_, ?_⟩
  · rw [hw]; exact hlo
  · rw [hw]; exact hhi
  · rw [hw]
    have h1 : 180 / Real.pi * Real.arctan ((1 / 10) / (9 / 10)) =
        180 * Real.arctan ((1 / 10) / (9 / 10)) / Real.pi := by ring
    rw [h1, lt_div_iff₀ hpi]
    linarith [Real.pi_lt_d4]
  · rw [hw]
    have h1 : 180 / Real.pi * Real.arctan ((1 / 10) / (9 / 10)) =
        180 * Real.arctan ((1 / 10) / (9 / 10)) / Real.pi := by ring
    rw [h1, div_lt_iff₀ hpi]
    linarith [Real.pi_gt_d4]

/-- C21. Probe points into the wall: when the direction and side stored in the component
are those `FindWallRunDirectionAndSide` returns for a normal `n` (any right vector), the
cross vector of `IsNextToWall` is (0,0,-1) for Left and (0,0,1) for Right and the lateral
probe offset `100 * (direction x crossVector)` equals `-100 * (n.X, n.Y, 0)` whichever
side was chosen. Componentwise, with `p` the character position and `d` the direction:
the probe starts at `(p.X + 20 d.X, p.Y + 20 d.Y, p.Z + 20 d.Z)` and ends at
`(p.X + 20 d.X - 100 n.X, p.Y + 20 d.Y - 100 n.Y, p.Z + 20 d.Z)`, that is from
`(p.X + 20 n.Y, p.Y - 20 n.X, p.Z)` for Right and from `(p.X - 20 n.Y, p.Y + 20 n.X, p.Z)`
for Left, and this segment is the probe the prober issues without tolerance. -/
theorem probe_points_into_wall [LinearOrderedField α]
    (c : UMyCharacterMovementComponent α) (n : FVector α) :
    crossVector (classifiedHit c n) =
      (if (c.FindWallRunDirectionAndSide n).2 = EWallRunSide.kLeft
        then (⟨0, 0, -1⟩ : FVector α) else ⟨0, 0, 1⟩) ∧
    (FVector.CrossProduct (c.FindWallRunDirectionAndSide n).1
        (crossVector (classifiedHit c n))).scale 100 = ⟨-100 * n.X, -100 * n.Y, 0⟩ ∧
    (⟨-100 * n.X, -100 * n.Y, 0⟩ : FVector α) = (⟨n.X, n.Y, 0⟩ : FVector α).scale (-100) ∧
    traceStart (classifiedHit c n) =
      c.PawnOwner.ActorLocation.add ((c.FindWallRunDirectionAndSide n).1.scale 20) ∧
    traceEnd (classifiedHit c n) =
      (traceStart (classifiedHit c n)).add ⟨-100 * n.X, -100 * n.Y, 0⟩ ∧
    traceStart (classifiedHit c n) =
      ⟨c.PawnOwner.ActorLocation.X + 20 * (c.FindWallRunDirectionAndSide n).1.X,
        c.PawnOwner.ActorLocation.Y + 20 * (c.FindWallRunDirectionAndSide n).1.Y,
        c.PawnOwner.ActorLocation.Z + 20 * (c.FindWallRunDirectionAndSide n).1.Z⟩ ∧
    traceEnd (classifiedHit c n) =
      ⟨c.PawnOwner.ActorLocation.X + 20 * (c.FindWallRunDirectionAndSide n).1.X - 100 * n.X,
        c.PawnOwner.ActorLocation.Y + 20 * (c.FindWallRunDirectionAndSide n).1.Y - 100 * n.Y,
        c.PawnOwner.ActorLocation.Z + 20 * (c.FindWallRunDirectionAndSide n).1.Z⟩ ∧
    ((c.FindWallRunDirectionAndSide n).2 = EWallRunSide.kRight →
      traceStart (classifiedHit c n) =
        ⟨c.PawnOwner.ActorLocation.X + 20 * n.Y, c.PawnOwner.ActorLocation.Y - 20 * n.X,
          c.PawnOwner.ActorLocation.Z⟩ ∧
      traceEnd (classifiedHit c n) =
        ⟨c.PawnOwner.ActorLocation.X + 20 * n.Y - 100 * n.X,
          c.PawnOwner.ActorLocation.Y - 20 * n.X - 100 * n.Y,
          c.PawnOwner.ActorLocation.Z⟩) ∧
    ((c.FindWallRunDirectionAndSide n).2 = EWallRunSide.kLeft →
      traceStart (classifiedHit c n) =
        ⟨c.PawnOwner.ActorLocation.X - 20 * n.Y, c.PawnOwner.ActorLocation.Y + 20 * n.X,
          c.PawnOwner.ActorLocation.Z⟩ ∧
      traceEnd (classifiedHit c n) =
        ⟨c.PawnOwner.ActorLocation.X - 20 * n.Y - 100 * n.X,
          c.PawnOwner.ActorLocation.Y + 20 * n.X - 100 * n.Y,
          c.PawnOwner.ActorLocation.Z⟩) ∧
    (∀ E : Engine α, (IsNextToWall E (classifiedHit c n) 0).2.Calls =
      c.Calls ++ [EngineCall.LineTrace
        ⟨c.PawnOwner.ActorLocation.X + 20 * (c.FindWallRunDirectionAndSide n).1.X,
          c.PawnOwner.ActorLocation.Y + 20 * (c.FindWallRunDirectionAndSide n).1.Y,
          c.PawnOwner.ActorLocation.Z + 20 * (c.FindWallRunDirectionAndSide n).1.Z⟩
        ⟨c.PawnOwner.ActorLocation.X + 20 * (c.FindWallRunDirectionAndSide n).1.X - 100 * n.X,
          c.PawnOwner.ActorLocation.Y + 20 * (c.FindWallRunDirectionAndSide n).1.Y - 100 * n.Y,
          c.PawnOwner.ActorLocation.Z + 20 * (c.FindWallRunDirectionAndSide n).1.Z⟩]) := by
  have hoff : (FVector.CrossProduct (c.FindWallRunDirectionAndSide n).1
      (crossVector (classifiedHit c n))).scale 100 = ⟨-100 * n.X, -100 * n.Y, 0⟩ := by
    unfold crossVector classifiedHit FindWallRunDirectionAndSide
    by_cases h : FVector.DotProduct2D n c.PawnOwner.ActorRightVector > 0
    · simp only [if_pos h, reduceCtorEq, if_false, FVector.CrossProduct, FVector.scale,
        FVector.mk.injEq]
      refine ⟨by ring, by ring, by ring⟩
    · simp only [if_neg h, if_true, FVector.CrossProduct, FVector.scale, FVector.mk.injEq]
      refine ⟨by ring, by ring, by ring⟩
  have hd : (classifiedHit c n).WallRunDirection = (c.FindWallRunDirectionAndSide n).1 := rfl
  have hloc : (classifiedHit c n).PawnOwner = c.PawnOwner := rfl
  have hend : traceEnd (classifiedHit c n) =
      (traceStart (classifiedHit c n)).add ⟨-100 * n.X, -100 * n.Y, 0⟩ := by
    show (traceStart (classifiedHit c n)).add
        ((FVector.CrossProduct (classifiedHit c n).WallRunDirection
          (crossVector (classifiedHit c n))).scale 100) = _
    rw [hd, hoff]
  have hstartc : traceStart (classifiedHit c n) =
      ⟨c.PawnOwner.ActorLocation.X + 20 * (c.FindWallRunDirectionAndSide n).1.X,
        c.PawnOwner.ActorLocation.Y + 20 * (c.FindWallRunDirectionAndSide n).1.Y,
        c.PawnOwner.ActorLocation.Z + 20 * (c.FindWallRunDirectionAndSide n).1.Z⟩ := by
    unfold traceStart
    rw [hd, hloc]
    simp only [FVector.add, FVector.scale, FVector.mk.injEq]
    refine ⟨by ring, by ring, by ring⟩
  have hendc : traceEnd (classifiedHit c n) =
      ⟨c.PawnOwner.ActorLocation.X + 20 * (c.FindWallRunDirectionAndSide n).1.X - 100 * n.X,
        c.PawnOwner.ActorLocation.Y + 20 * (c.FindWallRunDirectionAndSide n).1.Y - 100 * n.Y,
        c.PawnOwner.ActorLocation.Z + 20 * (c.FindWallRunDirectionAndSide n).1.Z⟩ := by
    rw [hend, hstartc]
    simp only [FVector.add, FVector.mk.injEq]
    refine ⟨by ring, by ring, by ring⟩
  have hR : (c.FindWallRunDirectionAndSide n).2 = EWallRunSide.kRight →
      (c.FindWallRunDirectionAndSide n).1 = ⟨n.Y, -n.X, 0⟩ := by
    unfold FindWallRunDirectionAndSide
    split_ifs with h
    · intro _; simp [FVector.CrossProduct]
    · intro h2; exact absurd h2 (by decide)
  have hL : (c.FindWallRunDirectionAndSide n).2 = EWallRunSide.kLeft →
      (c.FindWallRunDirectionAndSide n).1 = ⟨-n.Y, n.X, 0⟩ := by
    unfold FindWallRunDirectionAndSide
    split_ifs with h
    · intro h2; exact absurd h2 (by decide)
    · intro _; simp [FVector.CrossProduct]
  refine ⟨rfl, hoff, ?_, rfl, hend, hstartc, hendc, ?_, ?_, ?_⟩
  · simp only [FVector.scale, FVector.mk.injEq]
    refine ⟨by ring, by ring, by ring⟩
  · intro hs
    rw [hstartc, hendc, hR hs]
    simp only [FVector.mk.injEq]
    refine ⟨⟨?_, ?_, ?_⟩, ⟨?_, ?_, ?_⟩⟩ <;> first | trivial | ring1
  · intro hs
    rw [hstartc, hendc, hL hs]
    simp only [FVector.mk.injEq]
    refine ⟨⟨?_, ?_, ?_⟩, ⟨?_, ?_, ?_⟩⟩ <;> first | trivial | ring1
  · intro E
    have h0 : ¬ ((0 : α) > FLT_EPSILON) := by
      unfold FLT_EPSILON
      simp only [gt_iff_lt, not_lt]
      positivity
    rw [← hstartc, ← hendc]
    unfold IsNextToWall
    simp only [lineTrace, if_neg h0]
    split
    · rw [sideCheck_snd]; rfl
    · rfl

/-- The flag the prober returns, in terms of the hit `probedNormal` describes. -/
theorem IsNextToWall_flag_eq [LinearOrderedField α] (E : Engine α)
    (c : UMyCharacterMovementComponent α) (t : α) :
    (IsNextToWall E c t).1 =
      match probedNormal E c t with
      | some n => decide ((c.FindWallRunDirectionAndSide n).2 = c.WallRunSide)
      | none => false := by
  unfold IsNextToWall probedNormal
  simp only [lineTrace, FVector.raised, sub_eq_add_neg]
  split_ifs
  · cases h1 : E.LineTraceSingleByChannel
        ⟨c.traceStart.X, c.traceStart.Y, c.traceStart.Z + t / 2⟩
        ⟨c.traceEnd.X, c.traceEnd.Y, c.traceEnd.Z + t / 2⟩ with
    | some n => simp only [sideCheck_fst]; rfl
    | none =>
      cases h2 : E.LineTraceSingleByChannel
          ⟨c.traceStart.X, c.traceStart.Y, c.traceStart.Z + -(t / 2)⟩
          ⟨c.traceEnd.X, c.traceEnd.Y, c.traceEnd.Z + -(t / 2)⟩ with
      | some n => simp only [sideCheck_fst]; rfl
      | none => rfl
  · cases h1 : E.LineTraceSingleByChannel c.traceStart c.traceEnd with
    | some n => simp only [sideCheck_fst]; rfl
    | none => rfl

/-- The direction the prober leaves in the component, in terms of the hit `probedNormal`
describes. -/
theorem IsNextToWall_direction_eq [LinearOrderedField α] (E : Engine α)
    (c : UMyCharacterMovementComponent α) (t : α) :
    (IsNextToWall E c t).2.WallRunDirection =
      match probedNormal E c t with
      | some n => (c.FindWallRunDirectionAndSide n).1
      | none => c.WallRunDirection := by
  unfold IsNextToWall probedNormal
  simp only [lineTrace, FVector.raised, sub_eq_add_neg]
  split_ifs
  · cases h1 : E.LineTraceSingleByChannel
        ⟨c.traceStart.X, c.traceStart.Y, c.traceStart.Z + t / 2⟩
        ⟨c.traceEnd.X, c.traceEnd.Y, c.traceEnd.Z + t / 2⟩ with
    | some n => simp only [sideCheck_snd]; rfl
    | none =>
      cases h2 : E.LineTraceSingleByChannel
          ⟨c.traceStart.X, c.traceStart.Y, c.traceStart.Z + -(t / 2)⟩
          ⟨c.traceEnd.X, c.traceEnd.Y, c.traceEnd.Z + -(t / 2)⟩ with
      | some n => simp only [sideCheck_snd]; rfl
      | none => rfl
  · cases h1 : E.LineTraceSingleByChannel c.traceStart c.traceEnd with
    | some n => simp only [sideCheck_snd]; rfl
    | none => rfl

/-- In the sample world where every probe finds the wall round the corner, the hit the
prober works with is that wall, and it classifies as Right with direction (0.9, 0, 0). -/
theorem sampleCorner_probe :
    probedNormal (sampleEngine (some sampleCornerWall)) sampleWallRunning 50
      = some sampleCornerWall ∧
    sampleWallRunning.FindWallRunDirectionAndSide sampleCornerWall
      = (⟨9 / 10, 0, 0⟩, EWallRunSide.kRight) := by
  constructor
  · unfold probedNormal
    rw [if_pos (by norm_num [FLT_EPSILON])]
    rfl
  · unfold FindWallRunDirectionAndSide
    rw [if_pos (by
      norm_num [FVector.DotProduct2D, sampleCornerWall, sampleWallRunning, sampleComponent,
        samplePawn])]
    norm_num [FVector.CrossProduct, sampleCornerWall]

/-- C22. Prober side effects: `IsNextToWall` leaves `WallRunSide`, the movement-mode pair,
the intent flags and the whole base-class part unchanged; when no probe hits it leaves
`WallRunDirection` unchanged; when a probe hits it overwrites `WallRunDirection` with the
direction classified from the hit normal, also when it returns false because the
reclassified side differs from `WallRunSide`, as in the left-side sample wall run whose
probes find the wall round the corner: false is returned and the direction (1, 0, 0) is
overwritten with (0.9, 0, 0). -/
theorem is_next_to_wall_side_effects [LinearOrderedField α] (E : Engine α)
    (c : UMyCharacterMovementComponent α) (t : α) :
    ((IsNextToWall E c t).2.WallRunSide = c.WallRunSide ∧
      (IsNextToWall E c t).2.MovementMode = c.MovementMode ∧
      (IsNextToWall E c t).2.CustomMovementMode = c.CustomMovementMode ∧
      (IsNextToWall E c t).2.WantsToSprint = c.WantsToSprint ∧
      (IsNextToWall E c t).2.WallRunKeysDown = c.WallRunKeysDown ∧
      (IsNextToWall E c t).2.SprintKeyDown = c.SprintKeyDown ∧
      (IsNextToWall E c t).2.toUCharacterMovementComponent = c.toUCharacterMovementComponent) ∧
    (probedNormal E c t = none →
      (IsNextToWall E c t).2.WallRunDirection = c.WallRunDirection) ∧
    (∀ n, probedNormal E c t = some n →
      (IsNextToWall E c t).2.WallRunDirection = (c.FindWallRunDirectionAndSide n).1) ∧
    (∀ n, probedNormal E c t = some n →
      (c.FindWallRunDirectionAndSide n).2 ≠ c.WallRunSide →
      (IsNextToWall E c t).1 = false ∧
      (IsNextToWall E c t).2.WallRunDirection = (c.FindWallRunDirectionAndSide n).1) ∧
    ((IsNextToWall (sampleEngine (some sampleCornerWall)) sampleWallRunning 50).1 = false ∧
      sampleWallRunning.WallRunDirection = ⟨1, 0, 0⟩ ∧
      (IsNextToWall (sampleEngine (some sampleCornerWall)) sampleWallRunning 50).2.WallRunDirection
        = ⟨9 / 10, 0, 0⟩) := by
  have hdir := IsNextToWall_direction_eq E c t
  have hflag := IsNextToWall_flag_eq E c t
  obtain ⟨d, calls, hp⟩ := IsNextToWall_frame E c t
  refine ⟨?_, ?_, ?_, ?_, ?_⟩
  · rw [hp]
    exact ⟨rfl, rfl, rfl, rfl, rfl, rfl, rfl⟩
  · intro h
    rw [hdir, h]
  · intro n h
    rw [hdir, h]
  · intro n h hne
    refine ⟨?_, ?_⟩
    · rw [hflag, h]
      simp [hne]
    · rw [hdir, h]
  · refine ⟨?_, rfl, ?_⟩
    · rw [IsNextToWall_flag_eq, sampleCorner_probe.1]
      simp only [sampleCorner_probe.2]
      decide
    · rw [IsNextToWall_direction_eq, sampleCorner_probe.1]
      simp only [sampleCorner_probe.2]

/-- The value `TickComponent` samples for `WantsToSprint`, by components. -/
theorem sampledWantsToSprint_eq [LinearOrderedField α] (E : Engine α)
    (c : UMyCharacterMovementComponent α) :
    sampledWantsToSprint E c = (c.SprintKeyDown && decide (sprintAlignment E c > 5 / 10)) ∧
    sprintAlignment E c =
      FVector.DotProduct
        (FVector.Normalize E.InvSqrt ⟨c.Velocity.X, c.Velocity.Y, 0⟩)
        (FVector.Normalize E.InvSqrt
          ⟨c.PawnOwner.ActorForwardVector.X, c.PawnOwner.ActorForwardVector.Y, 0⟩) := by
  have hdot : sprintAlignment E c =
      FVector.DotProduct
        (FVector.Normalize E.InvSqrt ⟨c.Velocity.X, c.Velocity.Y, 0⟩)
        (FVector.Normalize E.InvSqrt
          ⟨c.PawnOwner.ActorForwardVector.X, c.PawnOwner.ActorForwardVector.Y, 0⟩) := by
    unfold sprintAlignment FVector.Normalize FVector.DotProduct
    simp only [mul_zero, add_zero]
    split_ifs <;> simp only [FVector.scale] <;> ring
  refine ⟨?_, hdot⟩
  unfold sampledWantsToSprint GetPawnOwnerVelocity
  rw [hdot]
  cases c.SprintKeyDown <;> simp

/-- Comparing a scaled dot product with one half, free of square roots: when `a` and `b`
are the positive inverse square roots of `sv` and `sf`, `p * (a * b) > 1/2` says that `p`
is positive and `4 p^2` exceeds `sv * sf`. -/
theorem half_lt_scaled_iff {β : Type} [LinearOrderedField β] (p a b sv sf : β)
    (ha : 0 < a) (hb : 0 < b) (hsv : 0 < sv) (hsf : 0 < sf)
    (ha2 : a * a * sv = 1) (hb2 : b * b * sf = 1) :
    p * (a * b) > 5 / 10 ↔ 0 < p ∧ sv * sf < 4 * p ^ 2 := by
  have hab : 0 < a * b := mul_pos ha hb
  have hss : 0 < sv * sf := mul_pos hsv hsf
  have hq : p ^ 2 = (p * (a * b)) ^ 2 * (sv * sf) := by
    have h1 : (p * (a * b)) ^ 2 * (sv * sf) = p ^ 2 * (a * a * sv) * (b * b * sf) := by ring
    rw [h1, ha2, hb2]
    ring
  constructor
  · intro h
    have hq0 : 0 < p * (a * b) := lt_trans (by norm_num) h
    have hp : 0 < p := by
      by_contra hn
      have hle : p * (a * b) ≤ 0 := mul_nonpos_of_nonpos_of_nonneg (not_lt.mp hn) hab.le
      exact absurd hq0 (not_lt.mpr hle)
    refine ⟨hp, ?_⟩
    rw [hq]
    have h4 : 1 < 4 * (p * (a * b)) ^ 2 := by nlinarith
    nlinarith [mul_pos (sub_pos.mpr h4) hss]
  · rintro ⟨hp, hlt⟩
    have hq0 : 0 < p * (a * b) := mul_pos hp hab
    rw [hq] at hlt
    have h4 : 1 < 4 * (p * (a * b)) ^ 2 := by
      by_contra hn
      have hle : 4 * (p * (a * b)) ^ 2 ≤ 1 := not_lt.mp hn
      have : 4 * ((p * (a * b)) ^ 2 * (sv * sf)) ≤ sv * sf := by
        nlinarith [mul_nonneg (sub_nonneg.mpr hle) hss.le]
      exact absurd hlt (not_lt.mpr this)
    by_contra hn
    have hle : p * (a * b) ≤ 5 / 10 := not_lt.mp hn
    nlinarith

/-- C14 as stated fails: the locally controlled sample character has the sprint key flag
set and moves straight ahead (the normalised vectors are both (1,0,0), dot product 1), so
the tick samples `WantsToSprint = true`; the base-class tick then replays a buffered move,
and the move's `PrepMoveFor` overwrites the flag: after `TickComponent` it is false. -/
theorem tick_component_replay_counterexample :
    sampleSprinting.PawnOwner.bLocallyControlled = true ∧
    sampleSprinting.SprintKeyDown = true ∧
    FVector.Normalize exactSampleEngine.InvSqrt
      ⟨sampleSprinting.Velocity.X, sampleSprinting.Velocity.Y, 0⟩ = ⟨1, 0, 0⟩ ∧
    FVector.Normalize exactSampleEngine.InvSqrt
      ⟨sampleSprinting.PawnOwner.ActorForwardVector.X,
        sampleSprinting.PawnOwner.ActorForwardVector.Y, 0⟩ = ⟨1, 0, 0⟩ ∧
    FVector.DotProduct (⟨1, 0, 0⟩ : FVector ℚ) ⟨1, 0, 0⟩ > 5 / 10 ∧
    (localOnlyChecks exactSampleEngine sampleMappings (some sampleKeyState)
      sampleSprinting).map (fun r => r.WantsToSprint) = some true ∧
    (TickComponent exactSampleEngine sampleMappings (some sampleKeyState) sampleReplayTick
      sampleSprinting).map (fun r => r.WantsToSprint) = some false := by
  have hv : FVector.Normalize exactSampleEngine.InvSqrt
      ⟨sampleSprinting.Velocity.X, sampleSprinting.Velocity.Y, 0⟩ = ⟨1, 0, 0⟩ := by
    norm_num [FVector.Normalize, FVector.scale, FVector.SMALL_NUMBER, exactSampleEngine,
      plainEngine, sampleInvSqrt, sampleSprinting, sampleComponent]
  have hf : FVector.Normalize exactSampleEngine.InvSqrt
      ⟨sampleSprinting.PawnOwner.ActorForwardVector.X,
        sampleSprinting.PawnOwner.ActorForwardVector.Y, 0⟩ = ⟨1, 0, 0⟩ := by
    norm_num [FVector.Normalize, FVector.scale, FVector.SMALL_NUMBER, exactSampleEngine,
      plainEngine, sampleInvSqrt, sampleSprinting, sampleComponent, samplePawn]
  have hs : sampledWantsToSprint exactSampleEngine sampleSprinting = true := by
    rw [(sampledWantsToSprint_eq _ _).1, (sampledWantsToSprint_eq _ _).2, hv, hf]
    norm_num [FVector.DotProduct, sampleSprinting]
  have hk : AreRequiredWallRunKeysDown sampleMappings (some sampleKeyState)
      ({ sampleSprinting with
          WantsToSprint := sampledWantsToSprint exactSampleEngine sampleSprinting } :
        UMyCharacterMovementComponent ℚ) = some true := by
    simp only [AreRequiredWallRunKeysDown, sprintKeyLoop_some]
    decide
  refine ⟨rfl, rfl, hv, hf, by norm_num [FVector.DotProduct], ?_, ?_⟩
  · have hloc : sampleSprinting.PawnOwner.bLocallyControlled = true := rfl
    unfold localOnlyChecks
    simp only [hloc, if_true, hk]
    simp [hs]
  · have hloc : sampleSprinting.PawnOwner.bLocallyControlled = true := rfl
    unfold TickComponent localOnlyChecks
    simp only [hloc, if_true, hk]
    rfl

/-- C14, amended. Sprint intent sampling: `TickComponent` is its local-only checks followed
by the base-class tick. For a locally controlled character the `WantsToSprint` value it
stores before the base-class tick is true exactly when `SprintKeyDown` is set and the dot
product of the normalised horizontal velocity with the normalised horizontal forward
vector is greater than 0.5 (false with the key up, with no horizontal velocity and at
exactly 0.5), written out by components in `sprintAlignment`; the checks complete
whenever a player controller is present. For a character that is not locally controlled
it writes neither flag and hands the component unchanged to the base-class tick. With an
inverse square root that is one (positive, its square times the argument is 1) and both
squared lengths above `SMALL_NUMBER`, the normalised vectors have unit length and the
comparison says the velocity lies within 60 degrees of the forward vector:
`v . f > 0` and `4 (v . f)^2 > |v|^2 |f|^2`. -/
theorem tick_component_stored_sprint_intent [LinearOrderedField α] {κ : Type} (E : Engine α)
    (GetActionMappingByName : String → List κ) (PlayerController : Option (κ → Bool))
    (Super_TickComponent : UMyCharacterMovementComponent α → UMyCharacterMovementComponent α)
    (c : UMyCharacterMovementComponent α) :
    TickComponent E GetActionMappingByName PlayerController Super_TickComponent c =
      (localOnlyChecks E GetActionMappingByName PlayerController c).map Super_TickComponent ∧
    sprintAlignment E c =
      FVector.DotProduct
        (FVector.Normalize E.InvSqrt ⟨c.Velocity.X, c.Velocity.Y, 0⟩)
        (FVector.Normalize E.InvSqrt
          ⟨c.PawnOwner.ActorForwardVector.X, c.PawnOwner.ActorForwardVector.Y, 0⟩) ∧
    (c.PawnOwner.bLocallyControlled = true →
      (∀ c1, localOnlyChecks E GetActionMappingByName PlayerController c = some c1 →
        (c1.WantsToSprint = true ↔ c.SprintKeyDown = true ∧ sprintAlignment E c > 5 / 10) ∧
        (c.SprintKeyDown = false → c1.WantsToSprint = false) ∧
        (c.Velocity.X = 0 → c.Velocity.Y = 0 → c1.WantsToSprint = false) ∧
        (sprintAlignment E c = 5 / 10 → c1.WantsToSprint = false)) ∧
      (PlayerController ≠ none →
        ∃ c1, localOnlyChecks E GetActionMappingByName PlayerController c = some c1)) ∧
    (c.PawnOwner.bLocallyControlled = false →
      localOnlyChecks E GetActionMappingByName PlayerController c = some c ∧
      TickComponent E GetActionMappingByName PlayerController Super_TickComponent c =
        some (Super_TickComponent c)) ∧
    ((∀ s, 0 < s → 0 < E.InvSqrt s ∧ E.InvSqrt s * E.InvSqrt s * s = 1) →
      FVector.SMALL_NUMBER < c.Velocity.X * c.Velocity.X + c.Velocity.Y * c.Velocity.Y →
      FVector.SMALL_NUMBER <
        c.PawnOwner.ActorForwardVector.X * c.PawnOwner.ActorForwardVector.X +
          c.PawnOwner.ActorForwardVector.Y * c.PawnOwner.ActorForwardVector.Y →
      (c.Velocity.X * E.InvSqrt (c.Velocity.X * c.Velocity.X + c.Velocity.Y * c.Velocity.Y)) ^ 2 +
        (c.Velocity.Y * E.InvSqrt (c.Velocity.X * c.Velocity.X + c.Velocity.Y * c.Velocity.Y)) ^ 2
          = 1 ∧
      FVector.Normalize E.InvSqrt ⟨c.Velocity.X, c.Velocity.Y, 0⟩ =
        ⟨c.Velocity.X * E.InvSqrt (c.Velocity.X * c.Velocity.X + c.Velocity.Y * c.Velocity.Y),
          c.Velocity.Y * E.InvSqrt (c.Velocity.X * c.Velocity.X + c.Velocity.Y * c.Velocity.Y),
          0⟩ ∧
      (sprintAlignment E c > 5 / 10 ↔
        0 < c.Velocity.X * c.PawnOwner.ActorForwardVector.X +
            c.Velocity.Y * c.PawnOwner.ActorForwardVector.Y ∧
        (c.Velocity.X * c.Velocity.X + c.Velocity.Y * c.Velocity.Y) *
            (c.PawnOwner.ActorForwardVector.X * c.PawnOwner.ActorForwardVector.X +
              c.PawnOwner.ActorForwardVector.Y * c.PawnOwner.ActorForwardVector.Y) <
          4 * (c.Velocity.X * c.PawnOwner.ActorForwardVector.X +
            c.Velocity.Y * c.PawnOwner.ActorForwardVector.Y) ^ 2)) := by
  obtain ⟨hsample, hdot⟩ := sampledWantsToSprint_eq E c
  have hsmall : (0 : α) < FVector.SMALL_NUMBER := by
    unfold FVector.SMALL_NUMBER
    positivity
  refine ⟨?_, hdot, ?_, ?_, ?_⟩
  · unfold TickComponent
    cases localOnlyChecks E GetActionMappingByName PlayerController c <;> rfl
  · intro hl
    have hstored : ∀ c1,
        localOnlyChecks E GetActionMappingByName PlayerController c = some c1 →
        c1.WantsToSprint = sampledWantsToSprint E c := by
      intro c1 hc1
      unfold localOnlyChecks at hc1
      simp only [hl, if_true] at hc1
      cases hk : AreRequiredWallRunKeysDown GetActionMappingByName PlayerController
          { c with WantsToSprint := sampledWantsToSprint E c } with
      | none => rw [hk] at hc1; exact Option.noConfusion hc1
      | some keys =>
        rw [hk] at hc1
        simp only [Option.some.injEq] at hc1
        rw [← hc1]
    constructor
    · intro c1 hc1
      have hw := hstored c1 hc1
      rw [hsample] at hw
      refine ⟨?_, ?_, ?_, ?_⟩
      · rw [hw]; simp
      · intro hk; rw [hw, hk]; rfl
      · intro hx hy
        rw [hw]
        have h0 : sprintAlignment E c = 0 := by
          unfold sprintAlignment
          rw [hx, hy]
          simp
        rw [h0]
        have hlt : ¬ ((0 : α) > 5 / 10) := by norm_num
        simp [hlt]
      · intro hd
        rw [hw, hd]
        simp
    · intro hpc
      obtain ⟨down, hdown⟩ := Option.ne_none_iff_exists'.mp hpc
      subst hdown
      unfold localOnlyChecks AreRequiredWallRunKeysDown
      simp [hl, sprintKeyLoop_some]
  · intro hl
    have h1 : localOnlyChecks E GetActionMappingByName PlayerController c = some c := by
      unfold localOnlyChecks
      simp [hl]
    refine ⟨h1, ?_⟩
    unfold TickComponent
    rw [h1]
  · intro hI hsv hsf
    obtain ⟨ha, ha2⟩ := hI _ (lt_trans hsmall hsv)
    obtain ⟨hb, hb2⟩ := hI _ (lt_trans hsmall hsf)
    refine ⟨?_, ?_, ?_⟩
    · have h1 : (c.Velocity.X *
          E.InvSqrt (c.Velocity.X * c.Velocity.X + c.Velocity.Y * c.Velocity.Y)) ^ 2 +
          (c.Velocity.Y *
            E.InvSqrt (c.Velocity.X * c.Velocity.X + c.Velocity.Y * c.Velocity.Y)) ^ 2 =
          E.InvSqrt (c.Velocity.X * c.Velocity.X + c.Velocity.Y * c.Velocity.Y) *
            E.InvSqrt (c.Velocity.X * c.Velocity.X + c.Velocity.Y * c.Velocity.Y) *
            (c.Velocity.X * c.Velocity.X + c.Velocity.Y * c.Velocity.Y) := by ring
      rw [h1, ha2]
    · unfold FVector.Normalize
      simp only [mul_zero, add_zero]
      rw [if_pos hsv]
      simp [FVector.scale]
    · unfold sprintAlignment
      rw [if_pos hsv, if_pos hsf]
      exact half_lt_scaled_iff _ _ _ _ _ ha hb (lt_trans hsmall hsv) (lt_trans hsmall hsf)
        ha2 hb2

/-- The real inverse square root is one: positive, and its square times the argument
is 1. -/
theorem real_inv_sqrt_spec :
    ∀ s : ℝ, 0 < s → 0 < (Real.sqrt s)⁻¹ ∧ (Real.sqrt s)⁻¹ * (Real.sqrt s)⁻¹ * s = 1 := by
  intro s hs
  have h1 : 0 < Real.sqrt s := Real.sqrt_pos.mpr hs
  refine ⟨inv_pos.mpr h1, ?_⟩
  have h2 : Real.sqrt s * Real.sqrt s = s := Real.mul_self_sqrt hs.le
  have h3 : (Real.sqrt s)⁻¹ * (Real.sqrt s)⁻¹ * s =
      (Real.sqrt s)⁻¹ * (Real.sqrt s)⁻¹ * (Real.sqrt s * Real.sqrt s) := by rw [h2]
  rw [h3]
  field_simp

/-- C14 amended, at concrete inputs with the real inverse square root: facing +X with the
sprint key flag set and key 1 held, a velocity of (300, 400, -50), 53 degrees off the
forward vector (normalised dot product 0.6), stores `WantsToSprint = true`; a velocity of
(100, 300, 0), 72 degrees off (normalised dot product about 0.32, although the raw dot
product is 100), stores false. -/
theorem tick_component_stored_sprint_intent_witness :
    (localOnlyChecks (plainEngine Real.arccos (fun x => (Real.sqrt x)⁻¹)) sampleMappings
      (some sampleKeyState) (sprintingWith (⟨300, 400, -50⟩ : FVector ℝ))).map
        (fun r => r.WantsToSprint) = some true ∧
    (localOnlyChecks (plainEngine Real.arccos (fun x => (Real.sqrt x)⁻¹)) sampleMappings
      (some sampleKeyState) (sprintingWith (⟨100, 300, 0⟩ : FVector ℝ))).map
        (fun r => r.WantsToSprint) = some false := by
  constructor
  · have h := tick_component_stored_sprint_intent
      (plainEngine Real.arccos (fun x => (Real.sqrt x)⁻¹)) sampleMappings
      (some sampleKeyState) (fun x => x) (sprintingWith (⟨300, 400, -50⟩ : FVector ℝ))
    obtain ⟨_, _, hlocal, _, hcrit⟩ := h
    obtain ⟨hall, hdone⟩ := hlocal rfl
    obtain ⟨c1, hc1⟩ := hdone (by simp)
    have hc := (hcrit real_inv_sqrt_spec
      (by norm_num [sprintingWith, defaultsComponent, FVector.SMALL_NUMBER])
      (by norm_num [sprintingWith, defaultsComponent, FVector.SMALL_NUMBER])).2.2
    have hal : sprintAlignment (plainEngine Real.arccos (fun x => (Real.sqrt x)⁻¹))
        (sprintingWith (⟨300, 400, -50⟩ : FVector ℝ)) > 5 / 10 :=
      hc.mpr (by norm_num [sprintingWith, defaultsComponent])
    have hw : c1.WantsToSprint = true := ((hall c1 hc1).1).mpr ⟨rfl, hal⟩
    rw [hc1]
    simp [hw]
  · have h := tick_component_stored_sprint_intent
      (plainEngine Real.arccos (fun x => (Real.sqrt x)⁻¹)) sampleMappings
      (some sampleKeyState) (fun x => x) (sprintingWith (⟨100, 300, 0⟩ : FVector ℝ))
    obtain ⟨_, _, hlocal, _, hcrit⟩ := h
    obtain ⟨hall, hdone⟩ := hlocal rfl
    obtain ⟨c1, hc1⟩ := hdone (by simp)
    have hc := (hcrit real_inv_sqrt_spec
      (by norm_num [sprintingWith, defaultsComponent, FVector.SMALL_NUMBER])
      (by norm_num [sprintingWith, defaultsComponent, FVector.SMALL_NUMBER])).2.2
    have hal : ¬ (sprintAlignment (plainEngine Real.arccos (fun x => (Real.sqrt x)⁻¹))
        (sprintingWith (⟨100, 300, 0⟩ : FVector ℝ)) > 5 / 10) := by
      rw [hc]
      norm_num [sprintingWith, defaultsComponent]
    have hw : c1.WantsToSprint = false := by
      cases hcw : c1.WantsToSprint with
      | false => rfl
      | true => exact absurd ((hall c1 hc1).1.mp hcw).2 hal
    rw [hc1]
    simp [hw]

end Claims

end WallRun
